import Mathlib

/-!
Verification development for the EdgeQL set-compilation module
(`edb/edgeql/compiler/setgen.py`).

The Python module is shallowly embedded below.  Mutable compiler state
(the IR Set/Pointer arena, the Set-to-type environment map, the schema
snapshot, the alias counter and the active scope tree) is threaded
explicitly through a `CompState` record; Python exceptions are rendered
as `Except Err`.  External collaborators (schema service, expression
dispatcher, type inference, textual parser) are abstracted as function
records (`Schema`, `Ext`), mirroring the module's import surface.

Helpers of this repository that live outside the provided source file
(the `PathId` operations from `edb/ir/pathid.py`, the scope-tree
operations from `edb/ir/scopetree.py` and the `pathctx` helpers) are
modelled from the specification; each such definition carries a doc
comment starting with `Modelled from the spec:`.
-/

namespace SetGen

/-- Schema type names (stand-ins for `s_types.Type` schema objects). -/
abbrev TypeName := String

/-- Opaque EdgeQL expression AST handle (`qlast.Base` nodes that the
external dispatcher compiles). -/
abbrev QlExpr := Nat

/-- IR Set arena handles. -/
abbrev SetId := Nat

/-- IR Pointer arena handles. -/
abbrev PtrId := Nat

/-- `s_pointers.PointerDirection`. -/
inductive PointerDirection where
  | Outbound
  | Inbound
deriving DecidableEq

/-- `irast.Cardinality`. -/
inductive Cardinality where
  | ONE
  | MANY
deriving DecidableEq

/-- Schema pointer definition (`s_pointers.Pointer`).  Derivation data
(`get_derived_from`, `generic`) is schema-dependent in the source
(`ptrcls.get_derived_from(schema)`), so it lives on the `Schema` record
rather than here. -/
structure Ptrcls where
  name : String
  source : TypeName
  target : TypeName
  is_link_property : Bool
  is_pure_computable : Bool
  default_text : Option String
  shortname : String
  out_card : Cardinality
  in_card : Cardinality
deriving DecidableEq

/-- `ptrcls.get_near_endpoint(schema, direction)`. -/
def Ptrcls.get_near_endpoint (p : Ptrcls) : PointerDirection → TypeName
  | .Outbound => p.source
  | .Inbound => p.target

/-- `ptrcls.get_far_endpoint(schema, direction)`. -/
def Ptrcls.get_far_endpoint (p : Ptrcls) : PointerDirection → TypeName
  | .Outbound => p.target
  | .Inbound => p.source

/-- The near endpoint handed to `resolve_ptr`: either a navigable
source (`s_sources.Source`: an object type or a link) or a non-source
(primitive) type. -/
inductive NearEndpoint where
  | objSource (t : TypeName)
  | linkSource (p : Ptrcls)
  | nonSource (t : TypeName)
deriving DecidableEq

/-- One extension segment of a `PathId`. -/
inductive PathIdStep where
  | ptrStep (p : Ptrcls) (dir : PointerDirection) (target : TypeName)
  | typeIndStep (target : TypeName) (optional : Bool) (card : Cardinality)
  | tupleStep (name : String) (target : TypeName)
deriving DecidableEq

/-- Modelled from the spec: canonical path identity (`irast.PathId`,
defined in `edb/ir/pathid.py`, which is not part of the provided
source) — a root type-or-alias tag plus an ordered sequence of pointer
extensions, each segment carrying a set of namespace tags; the last
segment can be marked as denoting the link itself (`ptr_path`). -/
inductive PathId where
  | root (t : TypeName) (typename : Option String) (ns : Finset String)
  | ext (pfx : PathId) (s : PathIdStep) (ns : Finset String) (is_ptr : Bool)
deriving DecidableEq

/-- Modelled from the spec: `merge_namespace(tags)` unions the tags into
every identity segment. -/
def PathId.merge_namespace : PathId → Finset String → PathId
  | .root t n ns, m => .root t n (ns ∪ m)
  | .ext p s ns b, m => .ext (p.merge_namespace m) s (ns ∪ m) b

/-- Modelled from the spec: `strip_namespace(tags)` is the inverse of
`merge_namespace`, removing the tags from every identity segment. -/
def PathId.strip_namespace : PathId → Finset String → PathId
  | .root t n ns, m => .root t n (ns \ m)
  | .ext p s ns b, m => .ext (p.strip_namespace m) s (ns \ m) b

/-- All namespace tags appearing on any segment of a `PathId`. -/
def PathId.tags : PathId → Finset String
  | .root _ _ ns => ns
  | .ext p _ ns _ => p.tags ∪ ns

/-- Modelled from the spec: `path_id.ptr_path()` marks the path id as
denoting the final link itself rather than its endpoint. -/
def PathId.ptr_path : PathId → PathId
  | .root t n ns => .root t n ns
  | .ext p s ns _ => .ext p s ns true

/-- Modelled from the spec: `path_id.src_path()` is the identity of the
path up to (excluding) the final extension segment. -/
def PathId.src_path : PathId → PathId
  | .root t n ns => .root t n ns
  | .ext p _ _ _ => p

/-- Pointer reference attached to an edge (`irast.BasePtrRef`): the
reference recovered from a path id's final segment. -/
inductive PtrRef where
  | ptrRef (p : Ptrcls) (dir : PointerDirection) (target : TypeName)
  | typeIndRef (target : TypeName) (optional : Bool) (card : Cardinality)
  | tupleRef (name : String) (target : TypeName)
deriving DecidableEq

/-- Modelled from the spec: `path_id.rptr()` — the pointer reference of
the final extension segment, if any. -/
def PathId.rptr : PathId → Option PtrRef
  | .root _ _ _ => none
  | .ext _ (.ptrStep p d t) _ _ => some (.ptrRef p d t)
  | .ext _ (.typeIndStep t o c) _ _ => some (.typeIndRef t o c)
  | .ext _ (.tupleStep n t) _ _ => some (.tupleRef n t)

/-- Modelled from the spec: `path_id.rptr_dir()` — the traversal
direction of the final extension segment (type and tuple indirections
are outbound). -/
def PathId.rptr_dir : PathId → Option PointerDirection
  | .root _ _ _ => none
  | .ext _ (.ptrStep _ d _) _ _ => some d
  | .ext _ (.typeIndStep _ _ _) _ _ => some .Outbound
  | .ext _ (.tupleStep _ _) _ _ => some .Outbound

/-- Modelled from the spec: `path_id.is_type_indirection_path()`. -/
def PathId.is_type_indirection_path : PathId → Bool
  | .ext _ (.typeIndStep _ _ _) _ _ => true
  | _ => false

/-- Modelled from the spec: `iter_weak_namespace_prefixes()` — the
prefixes of the id (longest first, the id itself included), used for
view-remap lookups. -/
def PathId.iter_weak_namespace_prefixes : PathId → List PathId
  | .root t n ns => [.root t n ns]
  | .ext p s ns b => .ext p s ns b :: p.iter_weak_namespace_prefixes

/-- `irtyputils.ptrcls_from_ptrref`: recover the schema pointer from a
pointer reference.  A type-indirection reference resolves to its
synthetic indirection link (non-computable, not a link property);
tuple references carry no pointer. -/
def ptrcls_from_ptrref : PtrRef → Option Ptrcls
  | .ptrRef p _ _ => some p
  | .typeIndRef t _ c => some
    { name := "__type_indirection__", source := t, target := t,
      is_link_property := false, is_pure_computable := false,
      default_text := none, shortname := "__type_indirection__",
      out_card := c, in_card := c }
  | .tupleRef _ _ => none

/-- `ptrref.dir_cardinality`: cardinality in the traversal direction. -/
def PtrRef.dir_cardinality : PtrRef → Cardinality
  | .ptrRef p d _ => match d with
    | .Outbound => p.out_card
    | .Inbound => p.in_card
  | .typeIndRef _ _ c => c
  | .tupleRef _ _ => .ONE

/-- Modelled from the spec: `irast.ScopeTreeNode` — a tree node
optionally labeled with a `PathId`, with a fenced flag and children
(`edb/ir/scopetree.py` is not part of the provided source). -/
inductive ScopeTree where
  | node (path_id : Option PathId) (fenced : Bool) (children : List ScopeTree)

def ScopeTree.path_idOf : ScopeTree → Option PathId
  | .node p _ _ => p

def ScopeTree.fencedOf : ScopeTree → Bool
  | .node _ f _ => f

def ScopeTree.childrenOf : ScopeTree → List ScopeTree
  | .node _ _ cs => cs

/-- Modelled from the spec: `node.attach_child(child)` adds a child
node under this node. -/
def attach_child (parent child : ScopeTree) : ScopeTree :=
  match parent with
  | .node p f cs => .node p f (cs ++ [child])

/-- Modelled from the spec: `node.attach_subtree(branch)` attaches the
branch to this node as a direct child. -/
def attach_subtree (parent branch : ScopeTree) : ScopeTree :=
  attach_child parent branch

/-- Modelled from the spec: `irast.new_scope_tree()` creates a fresh
anonymous (unlabeled) root node. -/
def new_scope_tree : ScopeTree :=
  .node none true []

/-- Modelled from the spec: `node.find_child(path_id)` — whether a
direct child of the node is labeled with the given `PathId`. -/
def ScopeTree.find_child (t : ScopeTree) (p : PathId) : Bool :=
  match t with
  | .node _ _ cs => cs.any fun c =>
      match c with
      | .node (some q) _ _ => q = p
      | .node none _ _ => false

mutual

/-- Modelled from the spec: `node.find_descendant(path_id)` — the first
strict descendant of the node labeled with the given `PathId`. -/
def ScopeTree.find_descendant : ScopeTree → PathId → Option ScopeTree
  | .node _ _ cs, p => findDescendantInList cs p

def findDescendantInList : List ScopeTree → PathId → Option ScopeTree
  | [], _ => none
  | c :: cs, p =>
    match (if c.path_idOf = some p then some c else c.find_descendant p) with
    | some r => some r
    | none => findDescendantInList cs p

end

mutual

/-- Apply `f` to the first strict descendant labeled with `p`
(the functional rendering of in-place mutation of a found node). -/
def ScopeTree.map_descendant : ScopeTree → PathId → (ScopeTree → ScopeTree) → ScopeTree
  | .node q fc cs, p, f => .node q fc (mapDescendantInList cs p f)

def mapDescendantInList : List ScopeTree → PathId → (ScopeTree → ScopeTree) → List ScopeTree
  | [], _, _ => []
  | c :: cs, p, f =>
    if c.path_idOf = some p then f c :: cs
    else
      match c.find_descendant p with
      | some _ => c.map_descendant p f :: cs
      | none => c :: mapDescendantInList cs p f

end

/-- The error classes raised by the module: `errors.QueryError`,
`errors.InvalidReferenceError` (both from `edb.errors`), Python's
builtin `RuntimeError` and `ValueError`, plus `keyErr` standing for the
interpreter-level failures (`KeyError`/`AttributeError`) that a
malformed input would produce. -/
inductive Err where
  | QueryError (msg : String)
  | InvalidReferenceError (msg : String)
  | RuntimeError (msg : String)
  | ValueError (msg : String)
  | keyErr
deriving DecidableEq

/-- Whether an error belongs to the user-query-error class
(`errors.QueryError`). -/
def Err.is_query_error : Err → Bool
  | .QueryError _ => true
  | _ => false

/-- Whether an error belongs to the reference-error class
(`errors.InvalidReferenceError`). -/
def Err.is_reference_error : Err → Bool
  | .InvalidReferenceError _ => true
  | _ => false

/-- Backing expression of a Set (`irast.Base` expression nodes that
occur in this module). -/
inductive Expr where
  | selectStmt (result : SetId) (implicit_wrapper : Bool)
  | tupleIndirectionExpr (source : SetId) (name : String) (path_id : PathId)
  | exprLeaf (tag : Nat)
deriving DecidableEq

/-- `getattr(ir_expr, 'path_id', None)` over the expression kinds. -/
def Expr.path_id_attr : Expr → Option PathId
  | .tupleIndirectionExpr _ _ p => some p
  | _ => none

/-- `isinstance(expr, irast.Stmt)` over the expression kinds. -/
def Expr.is_stmt : Expr → Bool
  | .selectStmt _ _ => true
  | _ => false

/-- `irutils.is_empty(ir_expr)`: only `irast.EmptySet` nodes are empty,
and those are Sets, never one of the wrapped expression kinds above. -/
def Expr.is_empty : Expr → Bool :=
  fun _ => false

/-- Kind of an edge: a plain `irast.Pointer` or the
`irast.TypeIndirectionPointer` subclass with its `optional` flag. -/
inductive PtrKind where
  | plain
  | typeIndirection (optional : Bool)
deriving DecidableEq

/-- An `irast.Pointer` edge: source and target Sets (arena handles), a
pointer reference and a traversal direction. -/
structure Pointer where
  source : SetId
  target : SetId
  ptrref : PtrRef
  direction : PointerDirection
  kind : PtrKind
deriving DecidableEq

/-- An `irast.Set` node.  `path_id` is optional because
`class_indirection_set` creates the Set before assigning its id;
`is_empty_set` marks `irast.EmptySet` instances. -/
structure IRSet where
  path_id : Option PathId
  typeref : Option TypeName
  rptr : Option PtrId
  expr : Option Expr
  path_scope_id : Option Nat
  is_empty_set : Bool
deriving DecidableEq

/-- The external schema snapshot: pure query services used by the
module (`edb.schema`).  Derivation-producing operations live on `Ext`
because they return updated snapshots. -/
structure Schema where
  issubclass : TypeName → TypeName → Bool
  is_tuple : TypeName → Bool
  is_object : TypeName → Bool
  is_view : TypeName → Bool
  peel_view : TypeName → TypeName
  get_view_type : TypeName → Option TypeName
  displayname : TypeName → String
  type_fullname : TypeName → String
  ptr_displayname : Ptrcls → String
  implicitly_castable : TypeName → TypeName → Bool
  get_derived_from : Ptrcls → Option Ptrcls
  generic : Ptrcls → Bool

/-- The mutable compilation environment threaded through every
operation: the Set and Pointer arenas, `env.set_types` (the
Set-to-type map: a present key may still map to `None` for an untyped
empty placeholder), `env.schema`, the alias/namespace counter
(`ctx.aliases`), the active scope tree (`ctx.path_scope`) and the
deferred-cardinality registrations of the cardinality service. -/
structure CompState where
  sets : List IRSet
  ptrs : List Pointer
  set_types : SetId → Option (Option TypeName)
  schema : Schema
  aliasCounter : Nat
  path_scope : ScopeTree
  deferred_cards : List Ptrcls

def CompState.getSet (st : CompState) (i : SetId) : Option IRSet :=
  st.sets[i]?

def CompState.getPtr (st : CompState) (j : PtrId) : Option Pointer :=
  st.ptrs[j]?

def CompState.modifySet (st : CompState) (i : SetId) (f : IRSet → IRSet) : CompState :=
  match st.sets[i]? with
  | some s => { st with sets := st.sets.set i (f s) }
  | none => st

def CompState.modifyPtr (st : CompState) (j : PtrId) (f : Pointer → Pointer) : CompState :=
  match st.ptrs[j]? with
  | some p => { st with ptrs := st.ptrs.set j (f p) }
  | none => st

def CompState.allocSet (st : CompState) (s : IRSet) : SetId × CompState :=
  (st.sets.length, { st with sets := st.sets ++ [s] })

def CompState.allocPtr (st : CompState) (p : Pointer) : PtrId × CompState :=
  (st.ptrs.length, { st with ptrs := st.ptrs ++ [p] })

def CompState.insertSetType (st : CompState) (i : SetId) (v : Option TypeName) : CompState :=
  { st with set_types := fun j => if j = i then some v else st.set_types j }

/-- `ctx.aliases.get(hint)`: mint a fresh alias from the monotonic
per-invocation counter. -/
def fresh_alias (hint : String) (st : CompState) : String × CompState :=
  (hint ++ "~" ++ toString st.aliasCounter, { st with aliasCounter := st.aliasCounter + 1 })

/-- One entry of `ctx.source_map`: the defining expression recorded for
a computed pointer, whether a lexical defining context (`qlctx`) is
attached, the recorded inner source path id and the externally supplied
namespace tag. -/
structure SourceMapEntry where
  qlexpr : Option QlExpr
  has_qlctx : Bool
  inner_source_path_id : Option PathId
  path_id_ns : Option String

/-- The relevant fields of `context.ContextLevel` (read-only
configuration from this module's point of view; the mutable parts are
in `CompState`).  Python mappings appear as lookup functions. -/
structure Ctx where
  anchors_source : Option SetId
  anchors_subject : Option SetId
  anchors_by_name : String → Option SetId
  partial_path_prefix : Option SetId
  aliased_views_has : String → Bool
  view_nodes_has : TypeName → Bool
  view_map : PathId → Option SetId
  view_sets : TypeName → Option SetId
  class_view_overrides : TypeName → Option TypeName
  path_scope_map : SetId → Option ScopeTree
  source_map : Ptrcls → Option SourceMapEntry
  pending_cardinality_from_parent : Ptrcls → Option Bool
  path_id_namespace : Finset String
  scope_node_id : Nat

/-- External collaborators of the module: the schema lookup/derivation
services (`schemactx`, `s_sources.Source.resolve_pointer`,
`s_utils.enrich_schema_lookup_error`), the expression dispatcher
(`dispatch.compile`), type inference (`inference.infer_type`), the
textual parser (`qlparser.parse`) and view declaration
(`stmtctx.declare_view_from_schema`). -/
structure Ext where
  resolve_pointer : Schema → NearEndpoint → String → PointerDirection →
    Option TypeName → Schema × Option Ptrcls
  get_schema_type : Option String → String → Schema → Except Err TypeName
  get_schema_ptr : String → Schema → Except Err Ptrcls
  derive_type_ptr : Schema → Ptrcls → NearEndpoint → Schema × Ptrcls
  enrich : String → String
  infer_type : Expr → TypeName
  dispatch_compile : QlExpr → CompState → Except Err SetId × CompState
  parse_default : String → QlExpr
  declare_view_from_schema : TypeName → CompState → TypeName × CompState
  normalize_index : TypeName → String → Except Err String
  get_subtype : TypeName → String → Except Err TypeName

/-- `new_set`: create a new `ir.Set` with the given attributes,
recording its type in `ctx.env.set_types` (the single factory through
which all non-empty Sets are created). -/
def new_set (stype : TypeName) (path_id : Option PathId) (rptr : Option PtrId)
    (expr : Option Expr) (path_scope_id : Option Nat) (st : CompState) :
    SetId × CompState :=
  let s : IRSet :=
    { path_id := path_id, typeref := some stype, rptr := rptr, expr := expr,
      path_scope_id := path_scope_id, is_empty_set := false }
  let (i, st1) := st.allocSet s
  (i, st1.insertSetType i (some stype))

/-- `new_empty_set`: construct an `irast.EmptySet` directly (not via
`new_set`); with no type given, the path id is rooted at the pseudo
type `anytype` and the Set-to-type map records `None`. -/
def new_empty_set (stype : Option TypeName) (alias_name : String) (st : CompState) :
    SetId × CompState :=
  let path_id_scls : TypeName :=
    match stype with
    | none => "anytype"
    | some t => t
  let path_id : PathId := .root path_id_scls (some alias_name) ∅
  let s : IRSet :=
    { path_id := some path_id, typeref := none, rptr := none, expr := none,
      path_scope_id := none, is_empty_set := true }
  let (i, st1) := st.allocSet s
  (i, st1.insertSetType i stype)

/-- `update_set_type`: update a Set's type reference and keep the
Set-to-type map current. -/
def update_set_type (i : SetId) (stype : TypeName) (st : CompState) : CompState :=
  let st1 := st.modifySet i fun s => { s with typeref := some stype }
  st1.insertSetType i (some stype)

/-- `get_set_type`: `ctx.env.set_types[ir_set]` — a missing key is the
interpreter-level `KeyError`; a present key may hold `None`. -/
def get_set_type (i : SetId) (st : CompState) : Except Err (Option TypeName) :=
  match st.set_types i with
  | none => .error .keyErr
  | some v => .ok v

/-- A `get_set_type` result that the caller immediately uses as an
actual type (`None` there would crash the caller). -/
def get_set_type_req (i : SetId) (st : CompState) : Except Err TypeName :=
  match st.set_types i with
  | none => .error .keyErr
  | some none => .error .keyErr
  | some (some t) => .ok t

/-- Modelled from the spec: `pathctx.get_path_id(stype, typename, ctx)`
— a fresh root path identity in the currently active namespace. -/
def get_path_id (stype : TypeName) (typename : Option String) (ctx : Ctx) : PathId :=
  .root stype typename ctx.path_id_namespace

/-- Modelled from the spec: `pathctx.extend_path_id` — append one
(pointer, direction, target) segment carrying the given namespace. -/
def extend_path_id (p : PathId) (ptrcls : Ptrcls) (direction : PointerDirection)
    (target : TypeName) (ns : Finset String) : PathId :=
  .ext p (.ptrStep ptrcls direction target) ns false

/-- Modelled from the spec: `pathctx.get_type_indirection_path_id` —
the path identity of a polymorphic narrowing, recording the outer id,
target type, optionality and multiplicity. -/
def get_type_indirection_path_id (p : PathId) (target_scls : TypeName)
    (optional : Bool) (card : Cardinality) : PathId :=
  .ext p (.typeIndStep target_scls optional card) ∅ false

/-- Modelled from the spec: `pathctx.get_tuple_indirection_path_id` —
the path identity of a tuple-field access. -/
def get_tuple_indirection_path_id (p : PathId) (el_name : String)
    (el_type : TypeName) (ctx : Ctx) : PathId :=
  .ext p (.tupleStep el_name el_type) ctx.path_id_namespace false

/-- Modelled from the spec: `pathctx.register_set_in_scope` — insert a
leaf labeled with the Set's `PathId` under the current scope node. -/
def register_set_in_scope (i : SetId) (ctx : Ctx) (st : CompState) :
    Except Err CompState :=
  match st.getSet i with
  | none => .error .keyErr
  | some s =>
    match s.path_id with
    | none => .error .keyErr
    | some pid =>
      .ok { st with path_scope := attach_child st.path_scope (.node (some pid) false []) }

/-- Modelled from the spec: `pathctx.assign_set_scope` — record the
scope node's identity on the Set (`path_scope_id`). -/
def assign_set_scope (i : SetId) (ctx : Ctx) (st : CompState) : CompState :=
  st.modifySet i fun s => { s with path_scope_id := some ctx.scope_node_id }

/-- `new_set_from_set`: derive a Set from another Set, inheriting
scope, expression and incoming edge, remapping the path id into the
active namespace unless `preserve_scope_ns`. -/
def new_set_from_set (i : SetId) (preserve_scope_ns : Bool)
    (path_id_arg : Option PathId) (stype_arg : Option TypeName)
    (ctx : Ctx) (st : CompState) : Except Err SetId × CompState :=
  match st.getSet i with
  | none => (.error .keyErr, st)
  | some s =>
    let path_id0 :=
      match path_id_arg with
      | some p => some p
      | none => s.path_id
    match path_id0 with
    | none => (.error .keyErr, st)
    | some pid0 =>
      let pid := if preserve_scope_ns then pid0 else pid0.merge_namespace ctx.path_id_namespace
      let stypeE : Except Err TypeName :=
        match stype_arg with
        | some t => .ok t
        | none => get_set_type_req i st
      match stypeE with
      | .error e => (.error e, st)
      | .ok stype =>
        let (j, st1) := new_set stype (some pid) none s.expr s.path_scope_id st
        let st2 := st1.modifySet j fun r => { r with rptr := s.rptr }
        (.ok j, st2)

/-- `class_set`: a Set denoting a whole object type. -/
def class_set (stype : TypeName) (path_id_arg : Option PathId) (ctx : Ctx)
    (st : CompState) : SetId × CompState :=
  let path_id :=
    match path_id_arg with
    | some p => p
    | none => get_path_id stype none ctx
  new_set stype (some path_id) none none none st

/-- `_is_computable_ptr`: the pointer has a recorded defining
expression, is a pure computable, or (when forced) has a default. -/
def _is_computable_ptr (ptrcls : Ptrcls) (force_computable : Bool) (ctx : Ctx) : Bool :=
  match ctx.source_map ptrcls with
  | some entry => entry.qlexpr.isSome
  | none =>
    ptrcls.is_pure_computable || (force_computable && ptrcls.default_text.isSome)

/-- The cardinality guard of `class_indirection_set`: MANY only when
the source's incoming edge is already MANY. -/
def rptr_dir_card (ptrs : List Pointer) (src : IRSet) : Cardinality :=
  match src.rptr with
  | some rp =>
    match ptrs[rp]? with
    | some p => if p.ptrref.dir_cardinality = .MANY then .MANY else .ONE
    | none => .ONE
  | none => .ONE

/-- `class_indirection_set`: wrap a source Set in a polymorphic type
indirection, multiplying only if the incoming edge was already MANY. -/
def class_indirection_set (source_id : SetId) (target_scls : TypeName)
    (optional : Bool) (ctx : Ctx) (st : CompState) : Except Err SetId × CompState :=
  let (poly, st1) := new_set target_scls none none none none st
  match st1.getSet source_id with
  | none => (.error .keyErr, st1)
  | some src =>
    let card : Cardinality := rptr_dir_card st1.ptrs src
    match src.path_id with
    | none => (.error .keyErr, st1)
    | some spid =>
      let pid := get_type_indirection_path_id spid target_scls optional card
      let st2 := st1.modifySet poly fun s => { s with path_id := some pid }
      match pid.rptr, pid.rptr_dir with
      | some pref, some pdir =>
        let (ptrId, st3) := st2.allocPtr
          { source := source_id, target := poly, ptrref := pref,
            direction := pdir, kind := .typeIndirection optional }
        let st4 := st3.modifySet poly fun s => { s with rptr := some ptrId }
        (.ok poly, st4)
      | _, _ => (.error .keyErr, st2)

/-- The failure message of `resolve_ptr`, built per the near endpoint's
kind and the requested direction (`resolve_ptr` lines 376–393). -/
def resolve_ptr_err_msg (sch : Schema) (ne : NearEndpoint) (pointer_name : String)
    (direction : PointerDirection) (target : Option TypeName) : String :=
  match ne with
  | .linkSource lp =>
    sch.ptr_displayname lp ++ " has no property '" ++ pointer_name ++ "'" ++
      (match target with
       | some tgt => "of type '" ++ sch.type_fullname tgt ++ "'"
       | none => "")
  | .objSource t =>
    (match direction with
     | .Outbound =>
       sch.displayname t ++ " has no link or property '" ++ pointer_name ++ "'" ++
         (match target with
          | some tgt => "of type '" ++ sch.type_fullname tgt ++ "'"
          | none => "")
     | .Inbound =>
       "'" ++ sch.displayname t ++ ".<" ++ pointer_name ++
         (match target with
          | some tgt => "[IS " ++ sch.displayname tgt ++ "]"
          | none => "") ++ "' does not resolve to any known path")
  | .nonSource _ => ""

/-- `resolve_ptr`: resolve a pointer by (source, name, direction,
optional far type).  On a `Source` near endpoint the schema service is
consulted (without descending into children); failure raises an
`InvalidReferenceError`, enriched with suggestions for outbound
lookups.  On a non-source endpoint only the reserved `__type__`
pointer resolves (by derivation, which updates the schema snapshot);
anything else is an invalid property reference on a primitive. -/
def resolve_ptr (ext : Ext) (near_endpoint : NearEndpoint) (pointer_name : String)
    (direction : PointerDirection) (target : Option TypeName)
    (ctx : Ctx) (st : CompState) : Except Err Ptrcls × CompState :=
  match near_endpoint with
  | .nonSource _ =>
    let step1 : Except Err (Option Ptrcls) × CompState :=
      match direction with
      | .Outbound =>
        match ext.get_schema_ptr pointer_name st.schema with
        | .error e => (.error e, st)
        | .ok bptr =>
          if bptr.shortname = "std::__type__" then
            let (schema2, p) := ext.derive_type_ptr st.schema bptr near_endpoint
            (.ok (some p), { st with schema := schema2 })
          else
            (.ok none, st)
      | .Inbound => (.ok (none : Option Ptrcls), st)
    match step1 with
    | (.error e, st1) => (.error e, st1)
    | (.ok (some p), st1) => (.ok p, st1)
    | (.ok none, st1) =>
      (.error (.InvalidReferenceError
        "invalid property reference on a primitive type expression"), st1)
  | ne =>
    let (schema2, ptrOpt) := ext.resolve_pointer st.schema ne pointer_name direction target
    let st1 := { st with schema := schema2 }
    match ptrOpt with
    | some p => (.ok p, st1)
    | none =>
      let msg := resolve_ptr_err_msg st1.schema ne pointer_name direction target
      let msg := if direction = .Outbound then ext.enrich msg else msg
      (.error (.InvalidReferenceError msg), st1)

/-- An `irast.Base` argument: either an already-built Set or a bare
expression node. -/
inductive IRBase where
  | setRef (i : SetId)
  | exprNode (e : Expr)

/-- Modelled from the spec: `inference.amend_empty_set_type` —
retroactively assign a type to a still-untyped empty-result
placeholder. -/
def amend_empty_set_type (i : SetId) (t : TypeName) (st : CompState) : CompState :=
  update_set_type i t st

/-- `get_expression_path_id`: a freshly minted alias-qualified
identity. -/
def get_expression_path_id (t : TypeName) (alias_name : String) (ctx : Ctx) : PathId :=
  get_path_id t (some alias_name) ctx

/-- `new_expression_set`: wrap a compiled expression into a Set,
deriving the path id from the expression's own identity, an explicit
override, or a fresh alias-qualified identity, with the result type
from external inference.  (The `irutils.is_empty` guard never fires on
the wrapped expression kinds: `EmptySet` nodes are Sets.) -/
def new_expression_set (ext : Ext) (ir_expr : Expr) (path_id_arg : Option PathId)
    (alias_arg : Option String) (typehint : Option TypeName) (ctx : Ctx)
    (st : CompState) : Except Err SetId × CompState :=
  let result_type := ext.infer_type ir_expr
  let pidE : Except Err PathId :=
    match path_id_arg with
    | some p => .ok p
    | none =>
      match ir_expr.path_id_attr with
      | some p => .ok p
      | none =>
        match alias_arg with
        | none => .error (.ValueError "either path_id or alias are required")
        | some a => .ok (get_expression_path_id result_type a ctx)
  match pidE with
  | .error e => (.error e, st)
  | .ok pid =>
    let (i, st1) := new_set result_type (some pid) none (some ir_expr) none st
    (.ok i, st1)

/-- `generated_set`: wrap an expression into a Set under a fresh
`expr` alias (the typehint-to-typeref conversion is performed by the
external `typegen` and only the hint's presence matters here). -/
def generated_set (ext : Ext) (expr : Expr) (path_id_arg : Option PathId)
    (typehint : Option TypeName) (ctx : Ctx) (st : CompState) :
    Except Err SetId × CompState :=
  let (alias_name, st1) := fresh_alias "expr" st
  new_expression_set ext expr path_id_arg (some alias_name) typehint ctx st1

/-- `tuple_indirection_set`: normalize the field name against the
tuple's shape and wrap the access as an expression Set. -/
def tuple_indirection_set (ext : Ext) (path_tip : SetId) (source_t : TypeName)
    (ptr_name : String) (ctx : Ctx) (st : CompState) :
    Except Err SetId × CompState :=
  match ext.normalize_index source_t ptr_name with
  | .error e => (.error e, st)
  | .ok el_norm_name =>
    match ext.get_subtype source_t ptr_name with
    | .error e => (.error e, st)
    | .ok el_type =>
      match st.getSet path_tip with
      | none => (.error .keyErr, st)
      | some s =>
        match s.path_id with
        | none => (.error .keyErr, st)
        | some spid =>
          let path_id := get_tuple_indirection_path_id spid el_norm_name el_type ctx
          let expr := Expr.tupleIndirectionExpr path_tip el_norm_name path_id
          generated_set ext expr none none ctx st

/-- `ensure_set`: wrap a non-Set expression, amend an untyped
`EmptySet` from the hint, and check implicit-cast compatibility
against the hint. -/
def ensure_set (ext : Ext) (b : IRBase) (typehint : Option TypeName)
    (path_id_arg : Option PathId) (ctx : Ctx) (st : CompState) :
    Except Err SetId × CompState :=
  let mk : Except Err SetId × CompState :=
    match b with
    | .exprNode e => generated_set ext e path_id_arg typehint ctx st
    | .setRef i => (.ok i, st)
  match mk with
  | (.error e, st1) => (.error e, st1)
  | (.ok i, st1) =>
    match get_set_type i st1 with
    | .error e => (.error e, st1)
    | .ok stype0 =>
      let amended : Option TypeName × CompState :=
        match st1.getSet i with
        | some s =>
          match typehint with
          | some th =>
            if s.is_empty_set ∧ stype0 = none then
              (some th, amend_empty_set_type i th st1)
            else (stype0, st1)
          | none => (stype0, st1)
        | none => (stype0, st1)
      match amended with
      | (stype, st2) =>
        match typehint with
        | none => (.ok i, st2)
        | some th =>
          match stype with
          | none => (.error .keyErr, st2)
          | some s0 =>
            if ¬ st2.schema.implicitly_castable s0 th then
              (.error (.QueryError
                ("expecting expression of type '" ++ st2.schema.type_fullname th ++
                  "', got '" ++ st2.schema.type_fullname s0 ++ "'")), st2)
            else (.ok i, st2)

/-- `ensure_stmt`: wrap anything that is not already a statement into
an implicit-wrapper `SelectStmt`. -/
def ensure_stmt (ext : Ext) (b : IRBase) (ctx : Ctx) (st : CompState) :
    Except Err Expr × CompState :=
  match b with
  | .exprNode e =>
    if e.is_stmt then (.ok e, st)
    else
      match ensure_set ext (.exprNode e) none none ctx st with
      | (.error er, st1) => (.error er, st1)
      | (.ok i, st1) => (.ok (.selectStmt i true), st1)
  | .setRef i =>
    match ensure_set ext (.setRef i) none none ctx st with
    | (.error er, st1) => (.error er, st1)
    | (.ok j, st1) => (.ok (.selectStmt j true), st1)

/-- `scoped_set`: assign a scope to a Set, wrapping it into an
implicit-wrapper subquery first when its `PathId` is already a direct
child of the current scope node (re-registration protection). -/
def scoped_set (ext : Ext) (b : IRBase) (typehint : Option TypeName)
    (path_id_arg : Option PathId) (force_reassign : Bool) (ctx : Ctx)
    (st : CompState) : Except Err SetId × CompState :=
  match b with
  | .exprNode e =>
    match generated_set ext e path_id_arg typehint ctx st with
    | (.error er, st1) => (.error er, st1)
    | (.ok i, st1) => (.ok i, assign_set_scope i ctx st1)
  | .setRef i0 =>
    let irE : Except Err SetId × CompState :=
      if typehint.isSome then ensure_set ext (.setRef i0) typehint path_id_arg ctx st
      else (.ok i0, st)
    match irE with
    | (.error er, st1) => (.error er, st1)
    | (.ok i, st1) =>
      match st1.getSet i with
      | none => (.error .keyErr, st1)
      | some s =>
        if s.path_scope_id = none ∨ force_reassign then
          let wrapE : Except Err SetId × CompState :=
            match s.path_id with
            | some pid =>
              if st1.path_scope.find_child pid ∧ path_id_arg = none then
                match ensure_stmt ext (.setRef i) ctx st1 with
                | (.error er, st2) => (.error er, st2)
                | (.ok stmt, st2) => generated_set ext stmt none typehint ctx st2
              else (.ok i, st1)
            | none => (.ok i, st1)
          match wrapE with
          | (.error er, st2) => (.error er, st2)
          | (.ok j, st2) => (.ok j, assign_set_scope j ctx st2)
        else (.ok i, st1)

/-- `computable_ptr_set`: expand a computed pointer.  The nested
compile context (`ctx.detached` / `_get_computable_ctx`) and the
compilation of the defining expression are delegated to the external
dispatcher; everything else — the view-source rebinding, the defining
expression lookup (with the `ValueError` on a non-computable pointer),
the deferred cardinality registration, and the final rewrite of the
result onto the outer call path — follows the source. -/
def computable_ptr_set (ext : Ext) (rptr_id : PtrId)
    (unnest_fence same_computable_scope : Bool) (ctx : Ctx) (st : CompState) :
    Except Err SetId × CompState :=
  match st.getPtr rptr_id with
  | none => (.error .keyErr, st)
  | some rp =>
    match ptrcls_from_ptrref rp.ptrref with
    | none => (.error .keyErr, st)
    | some ptrcls =>
      match get_set_type rp.source st with
      | .error e => (.error e, st)
      | .ok none => (.error .keyErr, st)
      | .ok (some source_scls) =>
        let reboundE : Except Err (SetId × CompState) :=
          if st.schema.is_view source_scls then
            match new_set_from_set rp.source true none none ctx st with
            | (.error e, _) => .error e
            | (.ok j, st1) =>
              let st2 := update_set_type j (st1.schema.peel_view source_scls) st1
              match st2.getSet j with
              | none => .error .keyErr
              | some js =>
                match js.rptr with
                | none => .ok (j, st2)
                | some spid =>
                  match st2.getPtr spid with
                  | none => .error .keyErr
                  | some srp =>
                    match ptrcls_from_ptrref srp.ptrref with
                    | none => .ok (j, st2)
                    | some source_rptrcls =>
                      match st2.schema.get_derived_from source_rptrcls with
                      | none => .ok (j, st2)
                      | some derived_from =>
                        if ¬ st2.schema.generic derived_from ∧
                            (st2.schema.get_derived_from derived_from).isSome ∧
                            ptrcls.is_link_property then
                          let newref : PtrRef :=
                            match srp.ptrref with
                            | .ptrRef _ d t => .ptrRef derived_from d t
                            | r => r
                          let st3 := st2.modifyPtr spid fun p => { p with ptrref := newref }
                          let st4 :=
                            { st3 with deferred_cards := st3.deferred_cards ++ [derived_from] }
                          .ok (j, st4)
                        else .ok (j, st2)
          else .ok (rp.source, st)
        match reboundE with
        | .error e => (.error e, st)
        | .ok (_source_set2, stA) =>
          let qlE : Except Err (QlExpr × Bool × Option PathId × Option String) :=
            match ctx.source_map ptrcls with
            | some entry =>
              match entry.qlexpr with
              | some q => .ok (q, entry.has_qlctx, entry.inner_source_path_id, entry.path_id_ns)
              | none => .error .keyErr
            | none =>
              match ptrcls.default_text with
              | none =>
                .error (.ValueError ("'" ++ ptrcls.shortname ++ "' is not a computable pointer"))
              | some txt => .ok (ext.parse_default txt, false, none, none)
          match qlE with
          | .error e => (.error e, stA)
          | .ok (qlexpr, _has_qlctx, _inner_spid, _pid_ns) =>
            let spidE : Except Err PathId :=
              if ptrcls.is_link_property then
                match stA.getSet rp.source with
                | some s =>
                  match s.path_id with
                  | some p => .ok p.ptr_path
                  | none => .error .keyErr
                | none => .error .keyErr
              else
                match stA.getSet rp.target with
                | some s =>
                  match s.path_id with
                  | some p => .ok p.src_path
                  | none => .error .keyErr
                | none => .error .keyErr
            match ext.dispatch_compile qlexpr stA with
            | (.error e, stB) => (.error e, stB)
            | (.ok comp, stB) =>
              let stC :=
                match ctx.pending_cardinality_from_parent ptrcls with
                | some from_parent =>
                  if ¬ from_parent then
                    { stB with deferred_cards := stB.deferred_cards ++ [ptrcls] }
                  else stB
                | none => stB
              match spidE with
              | .error e => (.error e, stC)
              | .ok source_path_id =>
                let path_id :=
                  extend_path_id source_path_id ptrcls .Outbound ptrcls.target
                    ctx.path_id_namespace
                let stD := update_set_type comp ptrcls.target stC
                let stE := stD.modifySet comp fun s =>
                  { s with path_id := some path_id, rptr := some rptr_id }
                let stF := stE.modifyPtr rptr_id fun p => { p with target := comp }
                (.ok comp, stF)

/-- `extend_path`: build the Set and incoming edge for one pointer
traversal from a source Set: link properties extend from the link's
path; an outbound traversal whose source's static type is not a
subclass of the pointer's near endpoint first inserts an optional
polymorphic indirection; computed pointers are expanded immediately
unless deferral was requested. -/
def extend_path (ext : Ext) (source_id : SetId) (ptrcls : Ptrcls)
    (direction : PointerDirection) (target_arg : Option TypeName)
    (ignore_computable force_computable unnest_fence same_computable_scope : Bool)
    (ctx : Ctx) (st : CompState) : Except Err SetId × CompState :=
  let step1 : Except Err (SetId × PathId × CompState) :=
    if ptrcls.is_link_property then
      match st.getSet source_id with
      | none => .error .keyErr
      | some s =>
        match s.path_id with
        | none => .error .keyErr
        | some p => .ok (source_id, p.ptr_path, st)
    else
      let indE : Except Err (SetId × CompState) :=
        if direction ≠ .Inbound then
          let source := ptrcls.get_near_endpoint direction
          match get_set_type_req source_id st with
          | .error e => .error e
          | .ok stype =>
            if ¬ st.schema.issubclass stype source then
              match class_indirection_set source_id source true ctx st with
              | (.error e, _) => .error e
              | (.ok j, st1) => .ok (j, st1)
            else .ok (source_id, st)
        else .ok (source_id, st)
      match indE with
      | .error e => .error e
      | .ok (sid, st1) =>
        match st1.getSet sid with
        | none => .error .keyErr
        | some s =>
          match s.path_id with
          | none => .error .keyErr
          | some p => .ok (sid, p, st1)
  match step1 with
  | .error e => (.error e, st)
  | .ok (src_id, src_path_id, st1) =>
    let target :=
      match target_arg with
      | none => ptrcls.get_far_endpoint direction
      | some t => t
    let path_id := extend_path_id src_path_id ptrcls direction target ctx.path_id_namespace
    let (target_set, st2) := new_set target (some path_id) none none none st1
    let pref : PtrRef := .ptrRef ptrcls direction target
    let (ptrId, st3) := st2.allocPtr
      { source := src_id, target := target_set, ptrref := pref,
        direction := direction, kind := .plain }
    let st4 := st3.modifySet target_set fun s => { s with rptr := some ptrId }
    if ¬ ignore_computable ∧ _is_computable_ptr ptrcls force_computable ctx then
      computable_ptr_set ext ptrId unnest_fence same_computable_scope ctx st4
    else
      (.ok target_set, st4)

/-- `ptr_step_set`: resolve the pointer, extend the path, and apply an
explicit type filter by polymorphic indirection when the requested
type differs from the pointer's far endpoint. -/
def ptr_step_set (ext : Ext) (path_tip : SetId) (source : NearEndpoint)
    (ptr_name : String) (direction : PointerDirection)
    (ptr_target : Option TypeName) (ignore_computable : Bool)
    (ctx : Ctx) (st : CompState) : Except Err SetId × CompState :=
  match resolve_ptr ext source ptr_name direction ptr_target ctx st with
  | (.error e, st1) => (.error e, st1)
  | (.ok ptrcls, st1) =>
    let target := ptrcls.get_far_endpoint direction
    match extend_path ext path_tip ptrcls direction (some target)
        ignore_computable false false false ctx st1 with
    | (.error e, st2) => (.error e, st2)
    | (.ok tip, st2) =>
      match ptr_target with
      | some pt =>
        if target ≠ pt then class_indirection_set tip pt false ctx st2
        else (.ok tip, st2)
      | none => (.ok tip, st2)

/-- The branch-normalization step of `fuse_scope_branch`: an anonymous
branch root with exactly one child collapses into that child. -/
def fuse_target_branch (branch : ScopeTree) : ScopeTree :=
  match branch with
  | .node none _ [c] => c
  | _ => branch

/-- `fuse_scope_branch`: merge a detached branch into the main tree at
`parent`.  An unlabeled parent attaches the branch directly; otherwise
an anonymous single-child branch root is collapsed, and a branch
matching the parent's own `PathId` contributes its children under a
fresh anonymous root instead of a duplicate labeled node. -/
def fuse_scope_branch (ir_set : SetId) (parent branch : ScopeTree) : ScopeTree :=
  match parent.path_idOf with
  | none => attach_subtree parent branch
  | some ppid =>
    let target_branch : ScopeTree := fuse_target_branch branch
    if target_branch.path_idOf = some ppid then
      let new_root := target_branch.childrenOf.foldl attach_child new_scope_tree
      attach_subtree parent new_root
    else
      attach_subtree parent branch

/-- One step of a `qlast.Path`: the `self`/`__subject__` anchors, a
schema object or alias reference, a pointer traversal (with optional
direction, the link-property marker `@`, and an optional `[IS T]`
filter already resolved to a type name), or an arbitrary
sub-expression. -/
inductive QlPathStep where
  | sourceAnchor
  | subjectAnchor
  | objectRef (module : Option String) (name : String)
  | ptrStep (name : String) (direction : Option PointerDirection)
            (is_property : Bool) (target : Option TypeName)
  | exprStep (e : QlExpr)
deriving DecidableEq

/-- A `qlast.Path` expression. -/
structure QlPath where
  isPartial : Bool
  steps : List QlPathStep

/-- The loop state of `compile_path`: the running tip, the recorded
detached sub-scopes, the deferred computables and the per-step Sets. -/
structure PathLoopState where
  st : CompState
  path_tip : Option SetId
  extra_scopes : List (SetId × ScopeTree)
  computables : List SetId
  path_sets : List SetId

/-- The view-remap check performed after every step of `compile_path`:
the first weakly-namespaced prefix of the tip's `PathId` found in
`ctx.view_map` rebinds the tip to the mapped Set's identity,
expression and edge. -/
def view_map_remap (ctx : Ctx) (tip : SetId) (st : CompState) :
    Except Err (SetId × CompState) :=
  match st.getSet tip with
  | none => .error .keyErr
  | some s =>
    match s.path_id with
    | none => .error .keyErr
    | some pid =>
      match pid.iter_weak_namespace_prefixes.findSome? (fun k => ctx.view_map k) with
      | none => .ok (tip, st)
      | some m =>
        match st.getSet m with
        | none => .error .keyErr
        | some ms =>
          match get_set_type tip st with
          | .error e => .error e
          | .ok none => .error .keyErr
          | .ok (some stype) =>
            match ms.path_id with
            | none => .error .keyErr
            | some mpid =>
              let (j, st1) := new_set stype (some mpid) ms.rptr ms.expr none st
              .ok (j, st1)

/-- One iteration of the step loop of `compile_path` (the body of the
`for i, step in enumerate(expr.steps)` loop, lines 151–271). -/
def compile_path_step (ext : Ext) (ctx : Ctx) (i : Nat) (step : QlPathStep)
    (ls : PathLoopState) : Except Err PathLoopState :=
  let coreE : Except Err (SetId × CompState × List (SetId × ScopeTree) × List SetId) :=
    match step with
    | .sourceAnchor =>
      match ctx.anchors_source with
      | some r => .ok (r, ls.st, ls.extra_scopes, ls.computables)
      | none => .error .keyErr
    | .subjectAnchor =>
      match ctx.anchors_subject with
      | some r => .ok (r, ls.st, ls.extra_scopes, ls.computables)
      | none => .error .keyErr
    | .objectRef mod name =>
      if i > 0 then
        .error (.RuntimeError "unexpected ObjectRef as a non-first path item")
      else
        let refnode : Option SetId :=
          if mod = none ∧ ¬ ctx.aliased_views_has name then ctx.anchors_by_name name
          else none
        match refnode with
        | some r =>
          match new_set_from_set r true none none ctx ls.st with
          | (.error e, _) => .error e
          | (.ok j, st1) => .ok (j, st1, ls.extra_scopes, ls.computables)
        | none =>
          match ext.get_schema_type mod name ls.st.schema with
          | .error e => .error e
          | .ok stype0 =>
            let declared : TypeName × CompState :=
              if (ls.st.schema.get_view_type stype0).isSome ∧
                  ¬ ctx.view_nodes_has stype0 then
                ext.declare_view_from_schema stype0 ls.st
              else (stype0, ls.st)
            match declared with
            | (stype, stA) =>
              let (tip0, stB) := class_set stype none ctx stA
              let afterView : Except Err (SetId × CompState × List (SetId × ScopeTree)) :=
                match ctx.view_sets stype with
                | some view_set =>
                  match new_set_from_set view_set false none none ctx stB with
                  | (.error e, _) => .error e
                  | (.ok j, stC) =>
                    match ctx.path_scope_map view_set with
                    | none => .error .keyErr
                    | some scope => .ok (j, stC, ls.extra_scopes ++ [(j, scope)])
                | none => .ok (tip0, stB, ls.extra_scopes)
              match afterView with
              | .error e => .error e
              | .ok (tip1, stD, ex1) =>
                let stE :=
                  match ctx.class_view_overrides stype with
                  | some view_scls => update_set_type tip1 view_scls stD
                  | none => stD
                .ok (tip1, stE, ex1, ls.computables)
    | .ptrStep pname dirOpt is_property tgtOpt =>
      let direction := dirOpt.getD .Outbound
      let ptrTargetE : Except Err (Option TypeName) :=
        match tgtOpt with
        | none => .ok none
        | some t =>
          if ¬ ls.st.schema.is_object t then
            .error (.QueryError ("invalid type filter operand: '" ++
              ls.st.schema.type_fullname t ++ "' is not an object type"))
          else .ok (some t)
      match ptrTargetE with
      | .error e => .error e
      | .ok ptr_target =>
        match ls.path_tip with
        | none => .error .keyErr
        | some tip =>
          let sourceE : Except Err NearEndpoint :=
            if is_property then
              match ls.st.getSet tip with
              | none => .error .keyErr
              | some s =>
                match s.rptr with
                | none => .error .keyErr
                | some rid =>
                  match ls.st.getPtr rid with
                  | none => .error .keyErr
                  | some rp =>
                    match ptrcls_from_ptrref rp.ptrref with
                    | none => .error .keyErr
                    | some lp => .ok (.linkSource lp)
            else
              match get_set_type_req tip ls.st with
              | .error e => .error e
              | .ok t => .ok (.objSource t)
          match sourceE with
          | .error e => .error e
          | .ok source =>
            -- ctx.newscope(fenced=True, temporary=True): compile the step
            -- under a fresh detached scope subtree, discarded afterwards
            let saved_scope := ls.st.path_scope
            let st0 := { ls.st with path_scope := ScopeTree.node none true [] }
            let inner : Except Err (SetId × CompState × List SetId) :=
              match source with
              | .objSource t =>
                if st0.schema.is_tuple t then
                  match tuple_indirection_set ext tip t pname ctx st0 with
                  | (.error e, _) => .error e
                  | (.ok j, st1) => .ok (j, st1, ls.computables)
                else
                  match ptr_step_set ext tip source pname direction ptr_target true ctx st0 with
                  | (.error e, _) => .error e
                  | (.ok j, st1) =>
                    match st1.getSet j with
                    | none => .error .keyErr
                    | some js =>
                      match js.rptr with
                      | none => .error .keyErr
                      | some rid =>
                        match st1.getPtr rid with
                        | none => .error .keyErr
                        | some rp =>
                          match ptrcls_from_ptrref rp.ptrref with
                          | none => .error .keyErr
                          | some ptrcls =>
                            if _is_computable_ptr ptrcls false ctx then
                              .ok (j, st1, ls.computables ++ [j])
                            else .ok (j, st1, ls.computables)
              | _ =>
                match ptr_step_set ext tip source pname direction ptr_target true ctx st0 with
                | (.error e, _) => .error e
                | (.ok j, st1) =>
                  match st1.getSet j with
                  | none => .error .keyErr
                  | some js =>
                    match js.rptr with
                    | none => .error .keyErr
                    | some rid =>
                      match st1.getPtr rid with
                      | none => .error .keyErr
                      | some rp =>
                        match ptrcls_from_ptrref rp.ptrref with
                        | none => .error .keyErr
                        | some ptrcls =>
                          if _is_computable_ptr ptrcls false ctx then
                            .ok (j, st1, ls.computables ++ [j])
                          else .ok (j, st1, ls.computables)
            match inner with
            | .error e => .error e
            | .ok (j, st1, comps) =>
              let st2 := { st1 with path_scope := saved_scope }
              .ok (j, st2, ls.extra_scopes, comps)
    | .exprStep e =>
      if i > 0 then
        .error (.RuntimeError "unexpected expression as a non-first path item")
      else
        let saved_scope := ls.st.path_scope
        let st0 := { ls.st with path_scope := ScopeTree.node none true [] }
        match ext.dispatch_compile e st0 with
        | (.error er, _) => .error er
        | (.ok r, st1) =>
          match ensure_set ext (.setRef r) none none ctx st1 with
          | (.error er, _) => .error er
          | (.ok tip, st2) =>
            let scopeSetE : Except Err SetId :=
              match st2.getSet tip with
              | none => .error .keyErr
              | some s =>
                match s.path_id with
                | none => .error .keyErr
                | some pid =>
                  if pid.is_type_indirection_path then
                    match s.rptr with
                    | none => .error .keyErr
                    | some rid =>
                      match st2.getPtr rid with
                      | none => .error .keyErr
                      | some rp => .ok rp.source
                  else .ok tip
            match scopeSetE with
            | .error er => .error er
            | .ok scope_set =>
              let captured := st2.path_scope
              let st3 := { st2 with path_scope := saved_scope }
              .ok (tip, st3, ls.extra_scopes ++ [(scope_set, captured)], ls.computables)
  match coreE with
  | .error e => .error e
  | .ok (tip, st, ex, comps) =>
    match view_map_remap ctx tip st with
    | .error e => .error e
    | .ok (tip2, st2) =>
      .ok { st := st2, path_tip := some tip2, extra_scopes := ex,
            computables := comps, path_sets := ls.path_sets ++ [tip2] }

/-- The step loop of `compile_path`. -/
def compile_steps (ext : Ext) (ctx : Ctx) :
    List QlPathStep → Nat → PathLoopState → Except Err PathLoopState
  | [], _, ls => .ok ls
  | s :: rest, i, ls =>
    match compile_path_step ext ctx i s ls with
    | .error e => .error e
    | .ok ls1 => compile_steps ext ctx rest (i + 1) ls1

/-- The deferred-computables loop of `compile_path` (lines 276–291):
expand each recorded computable Set whose path is still a descendant
of the scope tree and splice the expansion back into the chain. -/
def resolve_computables (ext : Ext) (ctx : Ctx) :
    List SetId → SetId → List SetId → CompState →
    Except Err (SetId × List SetId × CompState)
  | [], tip, path_sets, st => .ok (tip, path_sets, st)
  | c :: rest, tip, path_sets, st =>
    let stepE : Except Err (SetId × List SetId × CompState) :=
      match st.getSet c with
      | none => .error .keyErr
      | some s =>
        match s.path_id with
        | none => .error .keyErr
        | some pid =>
          match st.path_scope.find_descendant pid with
          | none => .ok (tip, path_sets, st)
          | some _scope =>
            match s.rptr with
            | none => .error .keyErr
            | some rid =>
              match computable_ptr_set ext rid false false ctx st with
              | (.error e, _) => .error e
              | (.ok comp, st1) =>
                match path_sets.indexOf? c with
                | none => .error .keyErr
                | some idx =>
                  if idx + 1 < path_sets.length then
                    match path_sets[idx + 1]? with
                    | none => .error .keyErr
                    | some nxt =>
                      match st1.getSet nxt with
                      | none => .error .keyErr
                      | some ns =>
                        match ns.rptr with
                        | none => .error .keyErr
                        | some nrid =>
                          let st2 := st1.modifyPtr nrid fun p => { p with source := comp }
                          .ok (tip, path_sets.set idx comp, st2)
                  else
                    .ok (comp, path_sets.set idx comp, st1)
    match stepE with
    | .error e => .error e
    | .ok (tip1, ps1, st1) => resolve_computables ext ctx rest tip1 ps1 st1

/-- The detached-sub-scope fusion loop of `compile_path`
(lines 293–303). -/
def fuse_extra_scopes (ctx : Ctx) :
    List (SetId × ScopeTree) → CompState → Except Err CompState
  | [], st => .ok st
  | (i, scope) :: rest, st =>
    let stepE : Except Err CompState :=
      match st.getSet i with
      | none => .error .keyErr
      | some s =>
        match s.path_id with
        | none => .error .keyErr
        | some pid =>
          match st.path_scope.find_descendant pid with
          | none => .ok st
          | some _node =>
            let st1 :=
              { st with path_scope :=
                  st.path_scope.map_descendant pid fun n => fuse_scope_branch i n scope }
            if s.path_scope_id = none then .ok (assign_set_scope i ctx st1)
            else .ok st1
    match stepE with
    | .error e => .error e
    | .ok st1 => fuse_extra_scopes ctx rest st1

/-- `compile_path`: compile an EdgeQL path expression into the Set for
its terminal step (§4.1 of the design). -/
def compile_path (ext : Ext) (p : QlPath) (ctx : Ctx) (st : CompState) :
    Except Err (SetId × CompState) :=
  let tip0E : Except Err (Option SetId) :=
    if p.isPartial then
      match ctx.partial_path_prefix with
      | some x => .ok (some x)
      | none => .error (.QueryError "could not resolve partial path ")
    else .ok none
  match tip0E with
  | .error e => .error e
  | .ok tip0 =>
    let ls0 : PathLoopState :=
      { st := st, path_tip := tip0, extra_scopes := [], computables := [],
        path_sets := [] }
    match compile_steps ext ctx p.steps 0 ls0 with
    | .error e => .error e
    | .ok ls =>
      match ls.path_tip with
      | none => .error .keyErr
      | some tip =>
        match register_set_in_scope tip ctx ls.st with
        | .error e => .error e
        | .ok st1 =>
          match resolve_computables ext ctx ls.computables tip ls.path_sets st1 with
          | .error e => .error e
          | .ok (tip2, _ps, st2) =>
            match fuse_extra_scopes ctx ls.extra_scopes st2 with
            | .error e => .error e
            | .ok st3 => .ok (tip2, st3)

/-! Concrete fixtures: a small schema with object types `Person` and
`Employee ⊆ Person`, a multi link `friends : Person → Person` and a
property `name : Person → str`, used to evaluate the theorems below on
concrete inputs. -/

def friendsPtr : Ptrcls :=
  { name := "friends", source := "Person", target := "Person",
    is_link_property := false, is_pure_computable := false,
    default_text := none, shortname := "default::friends",
    out_card := .MANY, in_card := .MANY }

def namePtr : Ptrcls :=
  { name := "name", source := "Person", target := "str",
    is_link_property := false, is_pure_computable := false,
    default_text := none, shortname := "default::name",
    out_card := .ONE, in_card := .MANY }

def sampleSchema : Schema :=
  { issubclass := fun a b => a == b || (a == "Employee" && b == "Person"),
    is_tuple := fun _ => false,
    is_object := fun t => t == "Person" || t == "Employee",
    is_view := fun _ => false,
    peel_view := fun t => t,
    get_view_type := fun _ => none,
    displayname := fun t => t,
    type_fullname := fun t => t,
    ptr_displayname := fun p => p.name,
    implicitly_castable := fun a b => a == b,
    get_derived_from := fun _ => none,
    generic := fun _ => false }

def sampleResolve (sch : Schema) (ne : NearEndpoint) (n : String)
    (d : PointerDirection) (_t : Option TypeName) : Schema × Option Ptrcls :=
  match ne, d with
  | .objSource src, .Outbound =>
    if n = "friends" ∧ (src = "Person" ∨ src = "Employee") then (sch, some friendsPtr)
    else if n = "name" ∧ (src = "Person" ∨ src = "Employee") then (sch, some namePtr)
    else (sch, none)
  | _, _ => (sch, none)

def sampleExt : Ext :=
  { resolve_pointer := sampleResolve,
    get_schema_type := fun _ n _ => .ok n,
    get_schema_ptr := fun _ _ => .error .keyErr,
    derive_type_ptr := fun s p _ => (s, p),
    enrich := fun m => m,
    infer_type := fun _ => "str",
    dispatch_compile := fun _ st => (.ok 0, st),
    parse_default := fun _ => 0,
    declare_view_from_schema := fun t st => (t, st),
    normalize_index := fun _ n => .ok n,
    get_subtype := fun _ _ => .ok "str" }

def sampleCtx : Ctx :=
  { anchors_source := some 0,
    anchors_subject := none,
    anchors_by_name := fun _ => none,
    partial_path_prefix := none,
    aliased_views_has := fun _ => false,
    view_nodes_has := fun _ => false,
    view_map := fun _ => none,
    view_sets := fun _ => none,
    class_view_overrides := fun _ => none,
    path_scope_map := fun _ => none,
    source_map := fun _ => none,
    pending_cardinality_from_parent := fun _ => none,
    path_id_namespace := ∅,
    scope_node_id := 7 }

def personPath : PathId := .root "Person" none ∅

def personSet : IRSet :=
  { path_id := some personPath, typeref := some "Person", rptr := none,
    expr := none, path_scope_id := none, is_empty_set := false }

def sampleState : CompState :=
  { sets := [personSet], ptrs := [],
    set_types := fun j => if j = 0 then some (some "Person") else none,
    schema := sampleSchema, aliasCounter := 0,
    path_scope := .node none true [], deferred_cards := [] }

/-- A `Person.name` edge target Set (arena id 1, edge id 0). -/
def nameEdgeSet : IRSet :=
  { path_id := some (extend_path_id personPath namePtr .Outbound "str" ∅),
    typeref := some "str", rptr := some 0, expr := none,
    path_scope_id := none, is_empty_set := false }

def edgePtr : Pointer :=
  { source := 0, target := 1, ptrref := .ptrRef namePtr .Outbound "str",
    direction := .Outbound, kind := .plain }

def edgeState : CompState :=
  { sets := [personSet, nameEdgeSet], ptrs := [edgePtr],
    set_types := fun j =>
      if j = 0 then some (some "Person")
      else if j = 1 then some (some "str") else none,
    schema := sampleSchema, aliasCounter := 0,
    path_scope := .node none true [], deferred_cards := [] }

/-- A computed property `comp : Person → str` with a recorded defining
expression, its edge (id 0) and the Set (id 2) that the external
dispatcher produces for the defining expression. -/
def compPtr : Ptrcls :=
  { name := "comp", source := "Person", target := "str",
    is_link_property := false, is_pure_computable := true,
    default_text := none, shortname := "default::comp",
    out_card := .ONE, in_card := .MANY }

def compEdgeSet : IRSet :=
  { path_id := some (extend_path_id personPath compPtr .Outbound "str" ∅),
    typeref := some "str", rptr := some 0, expr := none,
    path_scope_id := none, is_empty_set := false }

def compEdgePtr : Pointer :=
  { source := 0, target := 1, ptrref := .ptrRef compPtr .Outbound "str",
    direction := .Outbound, kind := .plain }

def innerResultSet : IRSet :=
  { path_id := some (.root "str" (some "inner") ∅), typeref := some "str",
    rptr := none, expr := none, path_scope_id := none, is_empty_set := false }

def compState : CompState :=
  { sets := [personSet, compEdgeSet, innerResultSet], ptrs := [compEdgePtr],
    set_types := fun j =>
      if j = 0 then some (some "Person")
      else if j = 1 then some (some "str")
      else if j = 2 then some (some "str") else none,
    schema := sampleSchema, aliasCounter := 0,
    path_scope := .node none true [], deferred_cards := [] }

def compCtx : Ctx :=
  { sampleCtx with source_map := fun p =>
      if p = compPtr then some ⟨some 5, true, none, none⟩ else none }

def compExt : Ext :=
  { sampleExt with dispatch_compile := fun _ st => (.ok 2, st) }

/-- A Set and a state whose scope tree already holds a direct child
labeled with the Set's `PathId`, for the C9 witness. -/
def scopedWitnessSet : IRSet :=
  { path_id := some personPath, typeref := some "Person", rptr := none,
    expr := none, path_scope_id := none, is_empty_set := false }

def scopedWitnessState : CompState :=
  { sets := [scopedWitnessSet], ptrs := [],
    set_types := fun j => if j = 0 then some (some "Person") else none,
    schema := sampleSchema, aliasCounter := 0,
    path_scope := .node none true [.node (some personPath) false []],
    deferred_cards := [] }

/-! Proof-support predicates over the embedding. -/

/-- `isinstance(near_endpoint, s_sources.Source)`. -/
def NearEndpoint.is_source : NearEndpoint → Bool
  | .objSource _ => true
  | .linkSource _ => true
  | .nonSource _ => false

/-- The Set-to-type map has an entry for every Set in the arena. -/
def TypesTotal (st : CompState) : Prop :=
  ∀ j, j < st.sets.length → (st.set_types j).isSome

/-- `ChainTo st root i ds`: following the `rptr` edges back from Set
`i` traverses plain `Pointer` edges with directions `ds` (tip-first)
and ends at `root`. -/
def ChainTo (st : CompState) (root : SetId) : SetId → List PointerDirection → Prop
  | i, [] => i = root
  | i, d :: ds =>
    ∃ s rpid p, st.getSet i = some s ∧ s.rptr = some rpid ∧
      st.getPtr rpid = some p ∧ p.kind = .plain ∧ p.direction = d ∧
      p.target = i ∧ ChainTo st root p.source ds

/-- The requested directions of the pointer-traversal steps of a path,
in path order (`Outbound` when unspecified). -/
def requested_dirs : List QlPathStep → List PointerDirection
  | [] => []
  | .ptrStep _ d _ _ :: rest => d.getD .Outbound :: requested_dirs rest
  | _ :: rest => requested_dirs rest

/-- The hypotheses of claim C1 on the non-root steps: each is a pure
pointer traversal (no link-property marker, no type filter) over a
non-tuple source whose resolution is a pure schema query yielding a
non-computed, non-link-property pointer, with the source statically
navigable through it (resolution never descends into subclasses, so an
outbound resolved pointer's near endpoint is a superclass of the
queried type). -/
def StepsOk (ext : Ext) (sch : Schema) (ctx : Ctx) : TypeName → List QlPathStep → Prop
  | t, .ptrStep nm dirOpt false none :: rest =>
    sch.is_tuple t = false ∧
    ∃ p, ext.resolve_pointer sch (.objSource t) nm (dirOpt.getD .Outbound) none =
        (sch, some p) ∧
      p.is_link_property = false ∧
      _is_computable_ptr p false ctx = false ∧
      (dirOpt.getD .Outbound = .Inbound ∨
        sch.issubclass t (p.get_near_endpoint (dirOpt.getD .Outbound)) = true) ∧
      StepsOk ext sch ctx (p.get_far_endpoint (dirOpt.getD .Outbound)) rest
  | _, [] => True
  | _, _ => False

/-- The hypotheses of claim C1 on the first step: an anchored root
(`self`, `__subject__`, or a bare name bound to a known anchor), with
`root` the Set the step produces and `t0` its recorded type. -/
def anchor_step_ok (ctx : Ctx) (st : CompState) (s0 : QlPathStep) (root : SetId)
    (t0 : TypeName) : Prop :=
  match s0 with
  | .sourceAnchor =>
    ctx.anchors_source = some root ∧
    (∃ s, st.getSet root = some s ∧ s.path_id.isSome = true) ∧
    st.set_types root = some (some t0)
  | .subjectAnchor =>
    ctx.anchors_subject = some root ∧
    (∃ s, st.getSet root = some s ∧ s.path_id.isSome = true) ∧
    st.set_types root = some (some t0)
  | .objectRef mod nm =>
    mod = none ∧ ctx.aliased_views_has nm = false ∧ root = st.sets.length ∧
    (∃ a s, ctx.anchors_by_name nm = some a ∧ st.getSet a = some s ∧
      s.path_id.isSome = true ∧ st.set_types a = some (some t0))
  | _ => False

/-- The loop invariant of the C1 induction: a well-formed tip with a
recorded type, empty deferred lists, the initial schema snapshot, and
a plain-edge chain from the tip back to the root. -/
def LoopInv (root : SetId) (dirs : List PointerDirection) (curT : TypeName)
    (sch : Schema) (ls : PathLoopState) : Prop :=
  ∃ tip s, ls.path_tip = some tip ∧ ls.st.getSet tip = some s ∧
    s.path_id.isSome = true ∧ ls.st.set_types tip = some (some curT) ∧
    ls.st.schema = sch ∧ ls.computables = [] ∧ ls.extra_scopes = [] ∧
    ChainTo ls.st root tip dirs

/-! Supporting lemmas. -/

theorem foldl_attach_child_eq (p : Option PathId) (f : Bool) :
    ∀ (l acc : List ScopeTree),
      l.foldl attach_child (ScopeTree.node p f acc) = .node p f (acc ++ l)
  | [], acc => by simp
  | c :: cs, acc => by
    simp only [List.foldl, attach_child]
    rw [foldl_attach_child_eq p f cs (acc ++ [c])]
    simp

/-! Claim C4. -/

/-- C4: for every `PathId` and every namespace tag set disjoint from
the id's existing tags, stripping the tags after merging them returns
the id unchanged: `strip_namespace(merge_namespace(id, ns), ns) = id`. -/
theorem C4_merge_strip_involution (id : PathId) (ns : Finset String)
    (h : Disjoint ns id.tags) :
    (id.merge_namespace ns).strip_namespace ns = id := by
  induction id with
  | root t n s =>
    rw [PathId.tags] at h
    rw [PathId.merge_namespace, PathId.strip_namespace,
      Finset.union_sdiff_cancel_right h.symm]
  | ext p stp nsseg b ih =>
    rw [PathId.tags, Finset.disjoint_union_right] at h
    rw [PathId.merge_namespace, PathId.strip_namespace,
      Finset.union_sdiff_cancel_right h.2.symm, ih h.1]

theorem C4_merge_strip_involution_witness :
    Disjoint ({"witness_tag"} : Finset String) (PathId.tags (.root "Person" none ∅)) ∧
    ((PathId.root "Person" none ∅).merge_namespace {"witness_tag"}).strip_namespace
        {"witness_tag"} = .root "Person" none ∅ := by
  have hd : Disjoint ({"witness_tag"} : Finset String)
      (PathId.tags (.root "Person" none ∅)) := by
    rw [PathId.tags]
    exact Finset.disjoint_empty_right _
  exact ⟨hd, C4_merge_strip_involution _ _ hd⟩

/-! Claim C2. -/

/-- C2: `fuse_scope_branch` behaves exactly as specified: an unlabeled
parent attaches the branch directly; an anonymous single-child branch
root collapses into that child (and nothing else collapses); a
(collapsed) target branch labeled with the parent's own `PathId`
contributes exactly its children under a fresh anonymous root; any
other branch is attached as-is.  In particular, fusing a branch
labeled `X` with children `{A, B}` into a parent labeled `X` yields an
attached subtree whose children are exactly `[A, B]` and whose root is
anonymous — no second node labeled `X`. -/
theorem C2_fuse_scope_branch_spec :
    (∀ i f cs branch,
      fuse_scope_branch i (.node none f cs) branch =
        attach_subtree (.node none f cs) branch) ∧
    (∀ g c, fuse_target_branch (.node none g [c]) = c) ∧
    (∀ branch, (∀ g c, branch ≠ .node none g [c]) →
      fuse_target_branch branch = branch) ∧
    (∀ i X f cs branch,
      (fuse_target_branch branch).path_idOf = some X →
      fuse_scope_branch i (.node (some X) f cs) branch =
        .node (some X) f
          (cs ++ [.node none true (fuse_target_branch branch).childrenOf])) ∧
    (∀ i X f cs branch,
      (fuse_target_branch branch).path_idOf ≠ some X →
      fuse_scope_branch i (.node (some X) f cs) branch =
        attach_subtree (.node (some X) f cs) branch) ∧
    (∀ i X f cs g A B,
      fuse_scope_branch i (.node (some X) f cs) (.node (some X) g [A, B]) =
        .node (some X) f (cs ++ [.node none true [A, B]]) ∧
      (ScopeTree.node none true [A, B]).path_idOf = none ∧
      (ScopeTree.node none true [A, B]).childrenOf = [A, B]) := by
  refine ⟨?_, ?_, ?_, ?_, ?_, ?_⟩
  · intro i f cs branch
    rfl
  · intro g c
    rfl
  · intro branch hne
    cases branch with
    | node pid g chl =>
      cases pid with
      | none =>
        cases chl with
        | nil => rfl
        | cons c rest =>
          cases rest with
          | nil => exact absurd rfl (hne g c)
          | cons c2 rest2 => rfl
      | some q => rfl
  · intro i X f cs branch h
    simp only [ScopeTree.path_idOf] at h
    rw [fuse_scope_branch]
    simp only [ScopeTree.path_idOf]
    rw [if_pos h, new_scope_tree, foldl_attach_child_eq]
    rfl
  · intro i X f cs branch h
    simp only [ScopeTree.path_idOf] at h
    rw [fuse_scope_branch]
    simp only [ScopeTree.path_idOf]
    rw [if_neg h]
  · intro i X f cs g A B
    refine ⟨?_, rfl, rfl⟩
    have hc : (fuse_target_branch (ScopeTree.node (some X) g [A, B])).path_idOf =
        some X := rfl
    simp only [ScopeTree.path_idOf] at hc
    rw [fuse_scope_branch]
    simp only [ScopeTree.path_idOf]
    rw [if_pos hc, new_scope_tree, foldl_attach_child_eq]
    rfl

theorem C2_fuse_scope_branch_spec_witness :
    (fuse_target_branch (.node (some personPath) false [])).path_idOf =
      some personPath ∧
    fuse_scope_branch 0 (.node (some personPath) true [])
        (.node (some personPath) false []) =
      .node (some personPath) true
        ([] ++ [.node none true
          (fuse_target_branch (.node (some personPath) false [])).childrenOf]) :=
  ⟨rfl, C2_fuse_scope_branch_spec.2.2.2.1 0 personPath true [] _ rfl⟩

/-! Claim C5. -/

/-- C5: resolving a nonexistent pointer on a `Source` near endpoint
raises an `InvalidReferenceError` and leaves the compilation state —
in particular the environment's schema snapshot and the
alias/namespace counter — unchanged.  (The `hres` hypothesis reflects
the schema service of spec §6: plain pointer resolution is a pure
query, returning the snapshot unchanged alongside the failed
lookup.) -/
theorem C5_resolve_ptr_frame (ext : Ext) (ne : NearEndpoint) (nm : String)
    (d : PointerDirection) (tgt : Option TypeName) (ctx : Ctx) (st : CompState)
    (hsrc : ne.is_source = true)
    (hres : ext.resolve_pointer st.schema ne nm d tgt = (st.schema, none)) :
    (∃ m, (resolve_ptr ext ne nm d tgt ctx st).1 =
      .error (.InvalidReferenceError m)) ∧
    (resolve_ptr ext ne nm d tgt ctx st).2.schema = st.schema ∧
    (resolve_ptr ext ne nm d tgt ctx st).2.aliasCounter = st.aliasCounter ∧
    (resolve_ptr ext ne nm d tgt ctx st).2 = st := by
  cases ne with
  | nonSource t => simp [NearEndpoint.is_source] at hsrc
  | objSource t =>
    simp only [resolve_ptr, hres]
    exact ⟨⟨_, rfl⟩, trivial, trivial, trivial⟩
  | linkSource lp =>
    simp only [resolve_ptr, hres]
    exact ⟨⟨_, rfl⟩, trivial, trivial, trivial⟩

theorem C5_resolve_ptr_frame_witness :
    (NearEndpoint.objSource "Person").is_source = true ∧
    sampleExt.resolve_pointer sampleState.schema (.objSource "Person") "bogus"
      .Outbound none = (sampleState.schema, none) ∧
    (∃ m, (resolve_ptr sampleExt (.objSource "Person") "bogus" .Outbound none
      sampleCtx sampleState).1 = .error (.InvalidReferenceError m)) ∧
    (resolve_ptr sampleExt (.objSource "Person") "bogus" .Outbound none
      sampleCtx sampleState).2 = sampleState := by
  have h := C5_resolve_ptr_frame sampleExt (.objSource "Person") "bogus" .Outbound
    none sampleCtx sampleState rfl rfl
  exact ⟨rfl, rfl, h.1, h.2.2.2⟩

/-! Claim C10. -/

/-- C10: the Set-to-type map accounting of the factory: `new_set`
keys the new Set to the given type and preserves totality of the map
over the arena; `new_empty_set` constructs its `irast.EmptySet`
directly (the `typeref` of the built node stays unset instead of being
populated by the `new_set` factory) and records its optional type
argument verbatim — `None` when called with no type, so `get_set_type`
on such a placeholder yields no resolved type; `update_set_type`
keeps the entry current.  The map stays total in keys over all
constructed Sets. -/
theorem C10_set_types_accounting :
    (∀ stype pid rptr expr psid st,
      ((new_set stype pid rptr expr psid st).2.set_types
          (new_set stype pid rptr expr psid st).1 = some (some stype)) ∧
      (new_set stype pid rptr expr psid st).1 = st.sets.length ∧
      ((new_set stype pid rptr expr psid st).2.getSet
          (new_set stype pid rptr expr psid st).1 =
        some { path_id := pid, typeref := some stype, rptr := rptr, expr := expr,
               path_scope_id := psid, is_empty_set := false }) ∧
      (TypesTotal st → TypesTotal (new_set stype pid rptr expr psid st).2)) ∧
    (∀ stype a st,
      ((new_empty_set stype a st).2.set_types (new_empty_set stype a st).1 =
        some stype) ∧
      ((new_empty_set stype a st).2.getSet (new_empty_set stype a st).1 =
        some { path_id := some (.root
                  (match stype with | none => "anytype" | some t => t) (some a) ∅),
               typeref := none, rptr := none, expr := none,
               path_scope_id := none, is_empty_set := true }) ∧
      (TypesTotal st → TypesTotal (new_empty_set stype a st).2)) ∧
    (∀ a st, get_set_type (new_empty_set none a st).1 (new_empty_set none a st).2 =
      .ok none) ∧
    (∀ i t st, (update_set_type i t st).set_types i = some (some t) ∧
      (TypesTotal st → TypesTotal (update_set_type i t st))) := by
  refine ⟨?_, ?_, ?_, ?_⟩
  · intro stype pid rptr expr psid st
    refine ⟨by simp [new_set, CompState.allocSet, CompState.insertSetType], rfl,
      ?_, ?_⟩
    · simp only [new_set, CompState.allocSet, CompState.insertSetType,
        CompState.getSet]
      exact List.getElem?_concat_length _ _
    · intro htot j hj
      simp only [new_set, CompState.allocSet, CompState.insertSetType,
        List.length_append, List.length_cons, List.length_nil] at hj ⊢
      by_cases hje : j = st.sets.length
      · simp [hje]
      · have hjlt : j < st.sets.length := by omega
        simp only [if_neg hje]
        exact htot j hjlt
  · intro stype a st
    refine ⟨by simp [new_empty_set, CompState.allocSet, CompState.insertSetType],
      ?_, ?_⟩
    · simp only [new_empty_set, CompState.allocSet, CompState.insertSetType,
        CompState.getSet]
      exact List.getElem?_concat_length _ _
    · intro htot j hj
      simp only [new_empty_set, CompState.allocSet, CompState.insertSetType,
        List.length_append, List.length_cons, List.length_nil] at hj ⊢
      by_cases hje : j = st.sets.length
      · simp [hje]
      · have hjlt : j < st.sets.length := by omega
        simp only [if_neg hje]
        exact htot j hjlt
  · intro a st
    simp [get_set_type, new_empty_set, CompState.allocSet, CompState.insertSetType]
  · intro i t st
    refine ⟨by simp [update_set_type, CompState.modifySet, CompState.insertSetType],
      ?_⟩
    intro htot j hj
    simp only [update_set_type, CompState.modifySet, CompState.insertSetType] at hj ⊢
    by_cases hje : j = i
    · simp [hje]
    · simp only [if_neg hje]
      cases hlk : st.sets[i]? with
      | none =>
        simp only [hlk] at hj
        exact htot j hj
      | some s =>
        simp only [hlk, List.length_set] at hj
        exact htot j hj

theorem C10_set_types_accounting_witness :
    TypesTotal sampleState ∧
    TypesTotal (new_set "Person" none none none none sampleState).2 ∧
    (new_set "Person" none none none none sampleState).2.set_types
      (new_set "Person" none none none none sampleState).1 = some (some "Person") ∧
    get_set_type (new_empty_set none "e" sampleState).1
      (new_empty_set none "e" sampleState).2 = .ok none := by
  have htot : TypesTotal sampleState := by
    intro j hj
    simp only [sampleState, List.length_cons, List.length_nil] at hj
    have : j = 0 := by omega
    simp [sampleState, this]
  have h := C10_set_types_accounting
  exact ⟨htot, (h.1 "Person" none none none none sampleState).2.2.2 htot,
    (h.1 "Person" none none none none sampleState).1,
    h.2.2.1 "e" sampleState⟩

/-! Claim C6. -/

/-- C6: the internal/programmer error sites raise categories distinct
from the user-query-error and reference-error classes: a schema object
reference or an arbitrary expression at a non-first path position in
`compile_path`'s step loop raises the builtin `RuntimeError`, and
computable expansion on a pointer that is neither computed nor
default-bearing raises the builtin `ValueError` — never a `QueryError`
or an `InvalidReferenceError`. -/
theorem C6_internal_error_categories :
    (∀ ext ctx i mod nm ls, 0 < i →
      compile_path_step ext ctx i (.objectRef mod nm) ls =
        .error (.RuntimeError "unexpected ObjectRef as a non-first path item")) ∧
    (∀ ext ctx i e ls, 0 < i →
      compile_path_step ext ctx i (.exprStep e) ls =
        .error (.RuntimeError "unexpected expression as a non-first path item")) ∧
    (∀ ext rid uf scs ctx st rp ptrcls d t srcT,
      st.getPtr rid = some rp →
      rp.ptrref = .ptrRef ptrcls d t →
      st.set_types rp.source = some (some srcT) →
      st.schema.is_view srcT = false →
      ctx.source_map ptrcls = none →
      ptrcls.default_text = none →
      (computable_ptr_set ext rid uf scs ctx st).1 =
        .error (.ValueError
          ("'" ++ ptrcls.shortname ++ "' is not a computable pointer"))) ∧
    (∀ m, (Err.RuntimeError m).is_query_error = false ∧
      (Err.RuntimeError m).is_reference_error = false ∧
      (Err.ValueError m).is_query_error = false ∧
      (Err.ValueError m).is_reference_error = false) := by
  refine ⟨?_, ?_, ?_, ?_⟩
  · intro ext ctx i mod nm ls h
    simp only [compile_path_step, if_pos h]
  · intro ext ctx i e ls h
    simp only [compile_path_step, if_pos h]
  · intro ext rid uf scs ctx st rp ptrcls d t srcT hget href hty hview hsm hdef
    simp only [computable_ptr_set, hget, href, ptrcls_from_ptrref, get_set_type,
      hty, hview, hsm, hdef, Bool.false_eq_true, if_false]
  · intro m
    exact ⟨rfl, rfl, rfl, rfl⟩

theorem C6_internal_error_categories_witness :
    0 < 1 ∧
    compile_path_step sampleExt sampleCtx 1 (.objectRef none "Person")
      { st := sampleState, path_tip := some 0, extra_scopes := [],
        computables := [], path_sets := [0] } =
      .error (.RuntimeError "unexpected ObjectRef as a non-first path item") ∧
    compile_path_step sampleExt sampleCtx 1 (.exprStep 0)
      { st := sampleState, path_tip := some 0, extra_scopes := [],
        computables := [], path_sets := [0] } =
      .error (.RuntimeError "unexpected expression as a non-first path item") ∧
    (computable_ptr_set sampleExt 0 false false sampleCtx edgeState).1 =
      .error (.ValueError "'default::name' is not a computable pointer") ∧
    (Err.ValueError "x").is_query_error = false := by
  have h := C6_internal_error_categories
  refine ⟨by omega, h.1 sampleExt sampleCtx 1 none "Person" _ (by omega),
    h.2.1 sampleExt sampleCtx 1 0 _ (by omega), ?_, (h.2.2.2 "x").2.2.1⟩
  exact h.2.2.1 sampleExt 0 false false sampleCtx edgeState edgePtr namePtr
    .Outbound "str" "Person" rfl rfl rfl rfl rfl rfl

/-! Characterization lemmas for path extension. -/

theorem set_append_last {α : Type} (l : List α) (a b : α) :
    (l ++ [a]).set l.length b = l ++ [b] := by
  induction l with
  | nil => rfl
  | cons x xs ih => simp [List.set, ih]

theorem getElem?_lt {α : Type} {l : List α} {i : Nat} {a : α}
    (h : l[i]? = some a) : i < l.length := by
  by_contra hn
  rw [List.getElem?_eq_none (by omega)] at h
  cases h

theorem getElem?_append_lt {α : Type} {l : List α} (l' : List α) {i : Nat}
    {a : α} (h : l[i]? = some a) : (l ++ l')[i]? = some a := by
  rw [List.getElem?_append, if_pos (getElem?_lt h)]
  exact h

/-- `class_indirection_set` on a well-formed source appends exactly one
polymorphic indirection Set and its `TypeIndirectionPointer` edge. -/
theorem class_indirection_set_eq (src : SetId) (tgt : TypeName) (opt : Bool)
    (ctx : Ctx) (st : CompState) (s : IRSet) (spid : PathId)
    (hset : st.getSet src = some s) (hpid : s.path_id = some spid) :
    class_indirection_set src tgt opt ctx st =
      (.ok st.sets.length,
        { st with
          sets := st.sets ++
            [{ path_id := some (get_type_indirection_path_id spid tgt opt
                  (rptr_dir_card st.ptrs s)),
               typeref := some tgt, rptr := some st.ptrs.length, expr := none,
               path_scope_id := none, is_empty_set := false }],
          ptrs := st.ptrs ++
            [{ source := src, target := st.sets.length,
               ptrref := .typeIndRef tgt opt (rptr_dir_card st.ptrs s),
               direction := .Outbound, kind := .typeIndirection opt }],
          set_types := fun j =>
            if j = st.sets.length then some (some tgt) else st.set_types j }) := by
  have hsrc_lt : src < st.sets.length := getElem?_lt hset
  simp only [CompState.getSet] at hset
  simp only [class_indirection_set, new_set, CompState.allocSet,
    CompState.insertSetType, CompState.getSet, CompState.modifySet,
    CompState.allocPtr, CompState.getPtr, List.getElem?_append, if_pos hsrc_lt,
    hset, hpid, lt_self_iff_false, if_false, Nat.sub_self,
    List.getElem?_cons_zero, set_append_last, get_type_indirection_path_id,
    PathId.rptr, PathId.rptr_dir]

/-- `extend_path` for a non-link-property pointer over a statically
navigable source (no implicit indirection) with computable expansion
not triggered: appends exactly one Set and one plain `Pointer` edge
from the source, extending the source's own path id. -/
theorem extend_path_plain (ext : Ext) (ctx : Ctx) (st : CompState) (tip : SetId)
    (p : Ptrcls) (d : PointerDirection) (tgt : TypeName)
    (ig fc uf scs : Bool) (s : IRSet) (spid : PathId) (stype : TypeName)
    (hlp : p.is_link_property = false)
    (hset : st.getSet tip = some s) (hpid : s.path_id = some spid)
    (htyp : st.set_types tip = some (some stype))
    (hno : d = .Inbound ∨ st.schema.issubclass stype (p.get_near_endpoint d) = true)
    (hnc : _is_computable_ptr p fc ctx = false) :
    extend_path ext tip p d (some tgt) ig fc uf scs ctx st =
      (.ok st.sets.length,
        { st with
          sets := st.sets ++
            [{ path_id := some (extend_path_id spid p d tgt ctx.path_id_namespace),
               typeref := some tgt, rptr := some st.ptrs.length, expr := none,
               path_scope_id := none, is_empty_set := false }],
          ptrs := st.ptrs ++
            [{ source := tip, target := st.sets.length,
               ptrref := .ptrRef p d tgt, direction := d, kind := .plain }],
          set_types := fun j =>
            if j = st.sets.length then some (some tgt) else st.set_types j }) := by
  have hstep1 :
      (if d ≠ PointerDirection.Inbound then
        match get_set_type_req tip st with
        | .error e => Except.error e
        | .ok stype0 =>
          if ¬ st.schema.issubclass stype0 (p.get_near_endpoint d) then
            match class_indirection_set tip (p.get_near_endpoint d) true ctx st with
            | (.error e, _) => .error e
            | (.ok j, st1) => .ok (j, st1)
          else .ok (tip, st)
      else .ok (tip, st)) = (.ok (tip, st) :
        Except Err (SetId × CompState)) := by
    cases hno with
    | inl hinb =>
      rw [if_neg (by simp [hinb])]
    | inr hsub =>
      by_cases hd : d = PointerDirection.Inbound
      · rw [if_neg (by simp [hd])]
      · rw [if_pos hd]
        simp only [get_set_type_req, htyp, hsub]
        simp
  simp only [extend_path, hlp, Bool.false_eq_true, if_false, hstep1]
  simp only [CompState.getSet] at hset
  simp only [hset, hpid, new_set, CompState.allocSet, CompState.insertSetType,
    CompState.allocPtr, CompState.modifySet, CompState.getSet,
    List.getElem?_concat_length, set_append_last, hnc, Bool.false_eq_true,
    and_false, if_false]

/-- `extend_path` for a link-property pointer: the new path id extends
from the link's own path (`ptr_path` of the source's id, not its
endpoint's), and no indirection is inserted. -/
theorem extend_path_linkprop (ext : Ext) (ctx : Ctx) (st : CompState) (tip : SetId)
    (p : Ptrcls) (d : PointerDirection) (tgt : TypeName)
    (ig fc uf scs : Bool) (s : IRSet) (spid : PathId)
    (hlp : p.is_link_property = true)
    (hset : st.getSet tip = some s) (hpid : s.path_id = some spid)
    (hnc : _is_computable_ptr p fc ctx = false) :
    extend_path ext tip p d (some tgt) ig fc uf scs ctx st =
      (.ok st.sets.length,
        { st with
          sets := st.sets ++
            [{ path_id := some (extend_path_id spid.ptr_path p d tgt
                  ctx.path_id_namespace),
               typeref := some tgt, rptr := some st.ptrs.length, expr := none,
               path_scope_id := none, is_empty_set := false }],
          ptrs := st.ptrs ++
            [{ source := tip, target := st.sets.length,
               ptrref := .ptrRef p d tgt, direction := d, kind := .plain }],
          set_types := fun j =>
            if j = st.sets.length then some (some tgt) else st.set_types j }) := by
  simp only [CompState.getSet] at hset
  simp only [extend_path, hlp, eq_self_iff_true, if_true, hset, hpid, new_set,
    CompState.allocSet, CompState.insertSetType, CompState.allocPtr,
    CompState.modifySet, CompState.getSet, List.getElem?_concat_length,
    set_append_last, hnc, Bool.false_eq_true, and_false, if_false]

/-- `extend_path` for an outbound traversal whose source's static type
is not a subclass of the pointer's near endpoint: an optional
polymorphic indirection Set is inserted first, and the extension
proceeds from the indirected source's path. -/
theorem extend_path_poly (ext : Ext) (ctx : Ctx) (st : CompState) (tip : SetId)
    (p : Ptrcls) (d : PointerDirection) (tgt : TypeName)
    (ig fc uf scs : Bool) (s : IRSet) (spid : PathId) (stype : TypeName)
    (hlp : p.is_link_property = false)
    (hd : d ≠ .Inbound)
    (hset : st.getSet tip = some s) (hpid : s.path_id = some spid)
    (htyp : st.set_types tip = some (some stype))
    (hsub : st.schema.issubclass stype (p.get_near_endpoint d) = false)
    (hnc : _is_computable_ptr p fc ctx = false) :
    extend_path ext tip p d (some tgt) ig fc uf scs ctx st =
      (.ok (st.sets.length + 1),
        { st with
          sets := st.sets ++
            [{ path_id := some (get_type_indirection_path_id spid
                  (p.get_near_endpoint d) true (rptr_dir_card st.ptrs s)),
               typeref := some (p.get_near_endpoint d),
               rptr := some st.ptrs.length, expr := none,
               path_scope_id := none, is_empty_set := false },
             { path_id := some (extend_path_id
                  (get_type_indirection_path_id spid (p.get_near_endpoint d) true
                    (rptr_dir_card st.ptrs s)) p d tgt ctx.path_id_namespace),
               typeref := some tgt, rptr := some (st.ptrs.length + 1),
               expr := none, path_scope_id := none, is_empty_set := false }],
          ptrs := st.ptrs ++
            [{ source := tip, target := st.sets.length,
               ptrref := .typeIndRef (p.get_near_endpoint d) true
                 (rptr_dir_card st.ptrs s),
               direction := .Outbound, kind := .typeIndirection true },
             { source := st.sets.length, target := st.sets.length + 1,
               ptrref := .ptrRef p d tgt, direction := d, kind := .plain }],
          set_types := fun j =>
            if j = st.sets.length + 1 then some (some tgt)
            else if j = st.sets.length then some (some (p.get_near_endpoint d))
            else st.set_types j }) := by
  have hciseq := class_indirection_set_eq tip (p.get_near_endpoint d) true ctx st
    s spid hset hpid
  simp only [extend_path, hlp, Bool.false_eq_true, if_false]
  rw [if_pos hd]
  simp only [get_set_type_req, htyp, hsub, Bool.false_eq_true, not_false_eq_true,
    if_true, hciseq]
  simp only [CompState.getSet, List.getElem?_concat_length, new_set,
    CompState.allocSet, CompState.insertSetType, CompState.allocPtr,
    CompState.modifySet, set_append_last, hnc, Bool.false_eq_true, and_false,
    if_false]
  simp [List.append_assoc]

/-! Claim C8. -/

/-- C8: in `extend_path`, a link-property pointer extends from the
source's link path (`ptr_path` of the source Set's id), not its
endpoint's; otherwise, for a non-inbound traversal whose source's
static type is not a subclass of the pointer's near endpoint, an
optional polymorphic type-indirection Set is inserted first (edge kind
`typeIndirection` with `optional = true`, source the original Set) and
the extension proceeds from the indirected source's path. -/
theorem C8_extend_path_source_paths :
    (∀ (ext : Ext) (ctx : Ctx) (st : CompState) (tip : SetId) (p : Ptrcls)
      (d : PointerDirection) (tgt : TypeName) (ig fc uf scs : Bool)
      (s : IRSet) (spid : PathId),
      p.is_link_property = true →
      st.getSet tip = some s → s.path_id = some spid →
      _is_computable_ptr p fc ctx = false →
      extend_path ext tip p d (some tgt) ig fc uf scs ctx st =
        (.ok st.sets.length,
          { st with
            sets := st.sets ++
              [{ path_id := some (extend_path_id spid.ptr_path p d tgt
                    ctx.path_id_namespace),
                 typeref := some tgt, rptr := some st.ptrs.length, expr := none,
                 path_scope_id := none, is_empty_set := false }],
            ptrs := st.ptrs ++
              [{ source := tip, target := st.sets.length,
                 ptrref := .ptrRef p d tgt, direction := d, kind := .plain }],
            set_types := fun j =>
              if j = st.sets.length then some (some tgt)
              else st.set_types j })) ∧
    (∀ (ext : Ext) (ctx : Ctx) (st : CompState) (tip : SetId) (p : Ptrcls)
      (d : PointerDirection) (tgt : TypeName) (ig fc uf scs : Bool)
      (s : IRSet) (spid : PathId) (stype : TypeName),
      p.is_link_property = false →
      d ≠ .Inbound →
      st.getSet tip = some s → s.path_id = some spid →
      st.set_types tip = some (some stype) →
      st.schema.issubclass stype (p.get_near_endpoint d) = false →
      _is_computable_ptr p fc ctx = false →
      extend_path ext tip p d (some tgt) ig fc uf scs ctx st =
        (.ok (st.sets.length + 1),
          { st with
            sets := st.sets ++
              [{ path_id := some (get_type_indirection_path_id spid
                    (p.get_near_endpoint d) true (rptr_dir_card st.ptrs s)),
                 typeref := some (p.get_near_endpoint d),
                 rptr := some st.ptrs.length, expr := none,
                 path_scope_id := none, is_empty_set := false },
               { path_id := some (extend_path_id
                    (get_type_indirection_path_id spid (p.get_near_endpoint d)
                      true (rptr_dir_card st.ptrs s)) p d tgt
                    ctx.path_id_namespace),
                 typeref := some tgt, rptr := some (st.ptrs.length + 1),
                 expr := none, path_scope_id := none, is_empty_set := false }],
            ptrs := st.ptrs ++
              [{ source := tip, target := st.sets.length,
                 ptrref := .typeIndRef (p.get_near_endpoint d) true
                   (rptr_dir_card st.ptrs s),
                 direction := .Outbound, kind := .typeIndirection true },
               { source := st.sets.length, target := st.sets.length + 1,
                 ptrref := .ptrRef p d tgt, direction := d, kind := .plain }],
            set_types := fun j =>
              if j = st.sets.length + 1 then some (some tgt)
              else if j = st.sets.length then some (some (p.get_near_endpoint d))
              else st.set_types j })) := by
  constructor
  · intro ext ctx st tip p d tgt ig fc uf scs s spid hlp hset hpid hnc
    exact extend_path_linkprop ext ctx st tip p d tgt ig fc uf scs s spid hlp
      hset hpid hnc
  · intro ext ctx st tip p d tgt ig fc uf scs s spid stype hlp hd hset hpid
      htyp hsub hnc
    exact extend_path_poly ext ctx st tip p d tgt ig fc uf scs s spid stype hlp
      hd hset hpid htyp hsub hnc

/-- A link property `weight` on the `friends` link, for the C8
witness. -/
def weightPtr : Ptrcls :=
  { name := "weight", source := "friends", target := "int",
    is_link_property := true, is_pure_computable := false,
    default_text := none, shortname := "default::weight",
    out_card := .ONE, in_card := .MANY }

/-- A pointer only present on the subtype `Employee`, for the C8
witness. -/
def badgePtr : Ptrcls :=
  { name := "badge", source := "Employee", target := "str",
    is_link_property := false, is_pure_computable := false,
    default_text := none, shortname := "default::badge",
    out_card := .ONE, in_card := .MANY }

theorem C8_extend_path_source_paths_witness :
    weightPtr.is_link_property = true ∧
    edgeState.getSet 1 = some nameEdgeSet ∧
    nameEdgeSet.path_id = some (extend_path_id personPath namePtr .Outbound "str" ∅) ∧
    _is_computable_ptr weightPtr false sampleCtx = false ∧
    (extend_path sampleExt 1 weightPtr .Outbound (some "int") true false false
      false sampleCtx edgeState).1 = .ok 2 ∧
    badgePtr.is_link_property = false ∧
    sampleState.schema.issubclass "Person" (badgePtr.get_near_endpoint .Outbound) =
      false ∧
    (extend_path sampleExt 0 badgePtr .Outbound (some "str") true false false
      false sampleCtx sampleState).1 = .ok 2 := by
  have h1 := C8_extend_path_source_paths.1 sampleExt sampleCtx edgeState 1
    weightPtr .Outbound "int" true false false false nameEdgeSet
    (extend_path_id personPath namePtr .Outbound "str" ∅) rfl rfl rfl rfl
  have h2 := C8_extend_path_source_paths.2 sampleExt sampleCtx sampleState 0
    badgePtr .Outbound "str" true false false false personSet personPath
    "Person" rfl (by decide) rfl rfl rfl rfl rfl
  refine ⟨rfl, rfl, rfl, rfl, ?_, rfl, rfl, ?_⟩
  · rw [h1]
    rfl
  · rw [h2]
    rfl

/-! Claim C7. -/

/-- C7: in `ptr_step_set`, an explicit type filter whose requested
type equals the resolved pointer's far endpoint inserts no
type-indirection Set — the call returns exactly the plain extension —
while a requested type different from the far endpoint inserts exactly
one non-optional polymorphic type-indirection Set after the extended
Set. -/
theorem C7_type_filter_indirection
    (ext : Ext) (ctx : Ctx) (st : CompState) (tip : SetId) (t : TypeName)
    (nm : String) (d : PointerDirection) (p : Ptrcls) (s : IRSet) (spid : PathId)
    (stype : TypeName) (t' : TypeName)
    (hres : ∀ tgt, ext.resolve_pointer st.schema (.objSource t) nm d tgt =
      (st.schema, some p))
    (hlp : p.is_link_property = false)
    (hset : st.getSet tip = some s) (hpid : s.path_id = some spid)
    (htyp : st.set_types tip = some (some stype))
    (hno : d = .Inbound ∨ st.schema.issubclass stype (p.get_near_endpoint d) = true)
    (hnc : _is_computable_ptr p false ctx = false)
    (hne : p.get_far_endpoint d ≠ t') :
    (ptr_step_set ext tip (.objSource t) nm d (some (p.get_far_endpoint d)) true
        ctx st =
      extend_path ext tip p d (some (p.get_far_endpoint d)) true false false
        false ctx st) ∧
    (ptr_step_set ext tip (.objSource t) nm d (some t') true ctx st =
      (.ok (st.sets.length + 1),
        { st with
          sets := st.sets ++
            [{ path_id := some (extend_path_id spid p d (p.get_far_endpoint d)
                  ctx.path_id_namespace),
               typeref := some (p.get_far_endpoint d),
               rptr := some st.ptrs.length, expr := none,
               path_scope_id := none, is_empty_set := false },
             { path_id := some (get_type_indirection_path_id
                  (extend_path_id spid p d (p.get_far_endpoint d)
                    ctx.path_id_namespace) t' false
                  (rptr_dir_card
                    (st.ptrs ++
                      [{ source := tip, target := st.sets.length,
                         ptrref := .ptrRef p d (p.get_far_endpoint d),
                         direction := d, kind := .plain }])
                    { path_id := some (extend_path_id spid p d
                        (p.get_far_endpoint d) ctx.path_id_namespace),
                      typeref := some (p.get_far_endpoint d),
                      rptr := some st.ptrs.length, expr := none,
                      path_scope_id := none, is_empty_set := false })),
               typeref := some t', rptr := some (st.ptrs.length + 1),
               expr := none, path_scope_id := none, is_empty_set := false }],
          ptrs := st.ptrs ++
            [{ source := tip, target := st.sets.length,
               ptrref := .ptrRef p d (p.get_far_endpoint d),
               direction := d, kind := .plain },
             { source := st.sets.length, target := st.sets.length + 1,
               ptrref := .typeIndRef t' false
                 (rptr_dir_card
                   (st.ptrs ++
                     [{ source := tip, target := st.sets.length,
                        ptrref := .ptrRef p d (p.get_far_endpoint d),
                        direction := d, kind := .plain }])
                   { path_id := some (extend_path_id spid p d
                       (p.get_far_endpoint d) ctx.path_id_namespace),
                     typeref := some (p.get_far_endpoint d),
                     rptr := some st.ptrs.length, expr := none,
                     path_scope_id := none, is_empty_set := false }),
               direction := .Outbound, kind := .typeIndirection false }],
          set_types := fun j =>
            if j = st.sets.length + 1 then some (some t')
            else if j = st.sets.length then some (some (p.get_far_endpoint d))
            else st.set_types j })) := by
  have hplainA := extend_path_plain ext ctx st tip p d (p.get_far_endpoint d)
    true false false false s spid stype hlp hset hpid htyp hno hnc
  constructor
  · simp only [ptr_step_set, resolve_ptr, hres (some (p.get_far_endpoint d))]
    rw [show ({ st with schema := st.schema } : CompState) = st from rfl]
    rw [hplainA]
    simp
  · simp only [ptr_step_set, resolve_ptr, hres (some t')]
    rw [show ({ st with schema := st.schema } : CompState) = st from rfl]
    simp only [hplainA]
    have hcis := class_indirection_set_eq st.sets.length t' false ctx
      ({ st with
        sets := st.sets ++
          [{ path_id := some (extend_path_id spid p d (p.get_far_endpoint d)
                ctx.path_id_namespace),
             typeref := some (p.get_far_endpoint d),
             rptr := some st.ptrs.length, expr := none,
             path_scope_id := none, is_empty_set := false }],
        ptrs := st.ptrs ++
          [{ source := tip, target := st.sets.length,
             ptrref := .ptrRef p d (p.get_far_endpoint d),
             direction := d, kind := .plain }],
        set_types := fun j =>
          if j = st.sets.length then some (some (p.get_far_endpoint d))
          else st.set_types j })
      { path_id := some (extend_path_id spid p d (p.get_far_endpoint d)
          ctx.path_id_namespace),
        typeref := some (p.get_far_endpoint d),
        rptr := some st.ptrs.length, expr := none,
        path_scope_id := none, is_empty_set := false }
      (extend_path_id spid p d (p.get_far_endpoint d) ctx.path_id_namespace)
      (by simp [CompState.getSet, List.getElem?_concat_length]) rfl
    rw [if_pos hne, hcis]
    simp [List.append_assoc]

theorem C7_type_filter_indirection_witness :
    (∀ tgt, sampleExt.resolve_pointer sampleState.schema (.objSource "Person")
      "friends" .Outbound tgt = (sampleState.schema, some friendsPtr)) ∧
    friendsPtr.get_far_endpoint .Outbound ≠ "Employee" ∧
    ptr_step_set sampleExt 0 (.objSource "Person") "friends" .Outbound
        (some (friendsPtr.get_far_endpoint .Outbound)) true sampleCtx
        sampleState =
      extend_path sampleExt 0 friendsPtr .Outbound
        (some (friendsPtr.get_far_endpoint .Outbound)) true false false false
        sampleCtx sampleState ∧
    (ptr_step_set sampleExt 0 (.objSource "Person") "friends" .Outbound
      (some "Employee") true sampleCtx sampleState).1 = .ok 2 := by
  have h := C7_type_filter_indirection sampleExt sampleCtx sampleState 0 "Person"
    "friends" .Outbound friendsPtr personSet personPath "Person" "Employee"
    (fun tgt => rfl) rfl rfl rfl rfl (Or.inr rfl) rfl (by decide)
  refine ⟨fun tgt => rfl, by decide, h.1, ?_⟩
  rw [h.2]
  rfl

/-! Claim C9. -/

/-- C9: `scoped_set` called without an explicit path id on a Set with
no assigned scope id whose `PathId` is already a direct child of the
current scope node wraps the Set in an implicit single-expression
`SelectStmt` (a fresh expression Set over an implicit-wrapper
statement) before scope assignment.  The fresh Set carries a newly
minted alias-qualified path id, the original Set is untouched, and —
the alias being fresh — the clashing `PathId` does not get a second
directly labeled child. -/
theorem C9_scoped_set_rewrap (ext : Ext) (ctx : Ctx) (st : CompState) (i : SetId)
    (s : IRSet) (pid : PathId) (v : Option TypeName)
    (hset : st.getSet i = some s)
    (hsid : s.path_scope_id = none)
    (hpid : s.path_id = some pid)
    (hty : st.set_types i = some v)
    (hfind : st.path_scope.find_child pid = true) :
    scoped_set ext (.setRef i) none none false ctx st =
      (.ok st.sets.length,
        { st with
          aliasCounter := st.aliasCounter + 1,
          sets := st.sets ++
            [{ path_id := some (.root (ext.infer_type (.selectStmt i true))
                  (some ("expr" ++ "~" ++ toString st.aliasCounter))
                  ctx.path_id_namespace),
               typeref := some (ext.infer_type (.selectStmt i true)),
               rptr := none, expr := some (.selectStmt i true),
               path_scope_id := some ctx.scope_node_id,
               is_empty_set := false }],
          set_types := fun j =>
            if j = st.sets.length then
              some (some (ext.infer_type (.selectStmt i true)))
            else st.set_types j }) ∧
    (scoped_set ext (.setRef i) none none false ctx st).2.getSet i = some s ∧
    ((PathId.root (ext.infer_type (.selectStmt i true))
        (some ("expr" ++ "~" ++ toString st.aliasCounter)) ctx.path_id_namespace ≠ pid) →
      ¬ (some (PathId.root (ext.infer_type (.selectStmt i true))
          (some ("expr" ++ "~" ++ toString st.aliasCounter)) ctx.path_id_namespace) =
        some pid)) := by
  have hmain : scoped_set ext (.setRef i) none none false ctx st =
      (.ok st.sets.length,
        { st with
          aliasCounter := st.aliasCounter + 1,
          sets := st.sets ++
            [{ path_id := some (.root (ext.infer_type (.selectStmt i true))
                  (some ("expr" ++ "~" ++ toString st.aliasCounter))
                  ctx.path_id_namespace),
               typeref := some (ext.infer_type (.selectStmt i true)),
               rptr := none, expr := some (.selectStmt i true),
               path_scope_id := some ctx.scope_node_id,
               is_empty_set := false }],
          set_types := fun j =>
            if j = st.sets.length then
              some (some (ext.infer_type (.selectStmt i true)))
            else st.set_types j }) := by
    simp only [scoped_set, Option.isSome_none, Bool.false_eq_true, if_false]
    simp only [CompState.getSet] at hset
    simp only [hset, hsid, hpid, hfind, hty, eq_self_iff_true, or_false, if_true,
      and_true, ensure_stmt, ensure_set, get_set_type, generated_set,
      fresh_alias, new_expression_set, Expr.path_id_attr,
      get_expression_path_id, get_path_id, new_set, CompState.allocSet,
      CompState.insertSetType, assign_set_scope, CompState.modifySet,
      CompState.getSet, List.getElem?_concat_length, set_append_last]
  refine ⟨hmain, ?_, ?_⟩
  · rw [hmain]
    exact getElem?_append_lt _ hset
  · intro hne hcontra
    exact hne (Option.some.inj hcontra)

theorem C9_scoped_set_rewrap_witness :
    (scopedWitnessState.getSet 0 = some scopedWitnessSet) ∧
    scopedWitnessSet.path_scope_id = none ∧
    scopedWitnessSet.path_id = some personPath ∧
    scopedWitnessState.set_types 0 = some (some "Person") ∧
    scopedWitnessState.path_scope.find_child personPath = true ∧
    (scoped_set sampleExt (.setRef 0) none none false sampleCtx
      scopedWitnessState).1 = .ok 1 := by
  have h := C9_scoped_set_rewrap sampleExt sampleCtx scopedWitnessState 0
    scopedWitnessSet personPath (some "Person") rfl rfl rfl rfl rfl
  refine ⟨rfl, rfl, rfl, rfl, rfl, ?_⟩
  rw [h.1]
  rfl

/-! Claim C3. -/

/-- C3: `computable_ptr_set` returns the compiled inner Set rewritten
so that its `PathId` is the canonical outbound extension of the outer
call path — the link's path (`ptr_path` of the source's id) for
link-property pointers, otherwise the source's path — by the computed
pointer, its `rptr` is the original `Pointer` edge, and that edge's
target is updated to the returned Set: structurally indistinguishable
from an ordinary extended pointer step.  (`hlink` bridges the code's
`rptr.target.path_id.src_path()` with the claim's "source's path" for
edges built by path extension; `hdisp`, `hptr2`, `hcomp` describe the
external dispatcher's compilation of the defining expression.) -/
theorem C3_computable_ptr_set_rewrite (ext : Ext) (ctx : Ctx) (st : CompState)
    (rid : PtrId) (rp : Pointer) (ptrcls : Ptrcls) (d : PointerDirection)
    (tref : TypeName) (srcT : TypeName) (entry : SourceMapEntry) (q : QlExpr)
    (ssrc stgt : IRSet) (psrc ptgt : PathId) (comp : SetId) (st2 : CompState)
    (scomp : IRSet) (uf scs : Bool)
    (hget : st.getPtr rid = some rp)
    (href : rp.ptrref = .ptrRef ptrcls d tref)
    (hty : st.set_types rp.source = some (some srcT))
    (hview : st.schema.is_view srcT = false)
    (hsm : ctx.source_map ptrcls = some entry)
    (hql : entry.qlexpr = some q)
    (hsrc_set : st.getSet rp.source = some ssrc)
    (hsrc_pid : ssrc.path_id = some psrc)
    (htgt_set : st.getSet rp.target = some stgt)
    (htgt_pid : stgt.path_id = some ptgt)
    (hdisp : ext.dispatch_compile q st = (.ok comp, st2))
    (hptr2 : st2.getPtr rid = some rp)
    (hcomp : st2.getSet comp = some scomp)
    (hlink : ptrcls.is_link_property = false → ptgt.src_path = psrc) :
    (computable_ptr_set ext rid uf scs ctx st).1 = .ok comp ∧
    (computable_ptr_set ext rid uf scs ctx st).2.getSet comp = some
      { path_id := some (extend_path_id
          (if ptrcls.is_link_property = true then psrc.ptr_path else psrc)
          ptrcls .Outbound ptrcls.target ctx.path_id_namespace),
        typeref := some ptrcls.target, rptr := some rid, expr := scomp.expr,
        path_scope_id := scomp.path_scope_id,
        is_empty_set := scomp.is_empty_set } ∧
    (computable_ptr_set ext rid uf scs ctx st).2.getPtr rid = some
      { source := rp.source, target := comp, ptrref := rp.ptrref,
        direction := rp.direction, kind := rp.kind } ∧
    (computable_ptr_set ext rid uf scs ctx st).2.set_types comp =
      some (some ptrcls.target) := by
  have hcomp_lt : comp < st2.sets.length := getElem?_lt hcomp
  have hrid_lt : rid < st2.ptrs.length := getElem?_lt hptr2
  have hspid :
      (if ptrcls.is_link_property then
        match st.getSet rp.source with
        | some s =>
          match s.path_id with
          | some p => Except.ok p.ptr_path
          | none => Except.error Err.keyErr
        | none => Except.error Err.keyErr
      else
        match st.getSet rp.target with
        | some s =>
          match s.path_id with
          | some p => Except.ok p.src_path
          | none => Except.error Err.keyErr
        | none => Except.error Err.keyErr) =
      (Except.ok
        (if ptrcls.is_link_property = true then psrc.ptr_path else psrc) :
        Except Err PathId) := by
    by_cases hlp : ptrcls.is_link_property = true
    · simp only [hlp, if_true, hsrc_set, hsrc_pid]
    · have hlpf : ptrcls.is_link_property = false := by
        cases hb : ptrcls.is_link_property
        · rfl
        · exact absurd hb hlp
      simp only [hlpf, Bool.false_eq_true, if_false, htgt_set, htgt_pid,
        hlink hlpf]
  simp only [CompState.getSet] at hcomp hspid
  simp only [CompState.getPtr] at hptr2 hget
  cases hpc : ctx.pending_cardinality_from_parent ptrcls with
  | none =>
    simp only [computable_ptr_set, hget, href, ptrcls_from_ptrref, get_set_type,
      hty, hview, Bool.false_eq_true, if_false, hsm, hql, hspid, hdisp, hpc,
      update_set_type, CompState.modifySet, CompState.insertSetType,
      CompState.modifyPtr, CompState.getSet, CompState.getPtr, hcomp,
      List.getElem?_set_self hcomp_lt, List.set_set, hptr2,
      List.getElem?_set_self hrid_lt, List.getElem?_set_self
        (by rw [List.length_set]; exact hcomp_lt : comp <
          (st2.sets.set comp scomp).length)]
    simp
  | some fp =>
    cases fp with
    | false =>
      simp only [computable_ptr_set, hget, href, ptrcls_from_ptrref,
        get_set_type, hty, hview, Bool.false_eq_true, if_false, hsm, hql, hspid,
        hdisp, hpc, update_set_type, CompState.modifySet, CompState.insertSetType,
        CompState.modifyPtr, CompState.getSet, CompState.getPtr, hcomp,
        List.getElem?_set_self hcomp_lt, List.set_set, hptr2,
        List.getElem?_set_self hrid_lt, List.getElem?_set_self
          (by rw [List.length_set]; exact hcomp_lt : comp <
            (st2.sets.set comp scomp).length)]
      simp [hcomp, hptr2, href, List.getElem?_set_self hcomp_lt,
        List.getElem?_set_self hrid_lt, List.set_set,
        List.getElem?_set_self
          (by rw [List.length_set]; exact hcomp_lt : comp <
            (st2.sets.set comp scomp).length)]
    | true =>
      simp only [computable_ptr_set, hget, href, ptrcls_from_ptrref,
        get_set_type, hty, hview, Bool.false_eq_true, if_false, hsm, hql, hspid,
        hdisp, hpc, update_set_type, CompState.modifySet, CompState.insertSetType,
        CompState.modifyPtr, CompState.getSet, CompState.getPtr, hcomp,
        List.getElem?_set_self hcomp_lt, List.set_set, hptr2,
        List.getElem?_set_self hrid_lt, List.getElem?_set_self
          (by rw [List.length_set]; exact hcomp_lt : comp <
            (st2.sets.set comp scomp).length)]
      simp [hcomp, hptr2, href, List.getElem?_set_self hcomp_lt,
        List.getElem?_set_self hrid_lt, List.set_set,
        List.getElem?_set_self
          (by rw [List.length_set]; exact hcomp_lt : comp <
            (st2.sets.set comp scomp).length)]

theorem C3_computable_ptr_set_rewrite_witness :
    compState.getPtr 0 = some compEdgePtr ∧
    compEdgePtr.ptrref = .ptrRef compPtr .Outbound "str" ∧
    compCtx.source_map compPtr = some ⟨some 5, true, none, none⟩ ∧
    compExt.dispatch_compile 5 compState = (.ok 2, compState) ∧
    (computable_ptr_set compExt 0 false false compCtx compState).1 = .ok 2 ∧
    (computable_ptr_set compExt 0 false false compCtx compState).2.getPtr 0 =
      some { source := 0, target := 2,
             ptrref := .ptrRef compPtr .Outbound "str",
             direction := .Outbound, kind := .plain } ∧
    (computable_ptr_set compExt 0 false false compCtx compState).2.set_types 2 =
      some (some "str") := by
  have h := C3_computable_ptr_set_rewrite compExt compCtx compState 0 compEdgePtr
    compPtr .Outbound "str" "Person" ⟨some 5, true, none, none⟩ 5 personSet
    compEdgeSet personPath (extend_path_id personPath compPtr .Outbound "str" ∅)
    2 compState innerResultSet false false rfl rfl rfl rfl rfl rfl rfl rfl rfl
    rfl rfl rfl rfl (fun _ => rfl)
  exact ⟨rfl, rfl, rfl, rfl, h.1, h.2.2.1, h.2.2.2⟩

/-! Infrastructure for claim C1: chain preservation and the loop
invariant. -/

theorem ChainTo_mono (st st' : CompState) (root : SetId)
    (hs : ∀ i s, st.getSet i = some s →
      ∃ s', st'.getSet i = some s' ∧ s'.rptr = s.rptr)
    (hp : ∀ j pp, st.getPtr j = some pp → st'.getPtr j = some pp) :
    ∀ tip ds, ChainTo st root tip ds → ChainTo st' root tip ds := by
  intro tip ds
  induction ds generalizing tip with
  | nil =>
    intro h
    exact h
  | cons dd ds ih =>
    intro h
    simp only [ChainTo] at h ⊢
    obtain ⟨s, rpid, pp, h1, h2, h3, h4, h5, h6, h7⟩ := h
    obtain ⟨s', hs1, hs2⟩ := hs _ _ h1
    exact ⟨s', rpid, pp, hs1, by rw [hs2, h2], hp _ _ h3, h4, h5, h6, ih _ h7⟩

theorem view_map_findSome?_none (ctx : Ctx)
    (hvm : ∀ q : PathId, ctx.view_map q = none) :
    ∀ l : List PathId, l.findSome? (fun k => ctx.view_map k) = none := by
  intro l
  induction l with
  | nil => rfl
  | cons x xs ih => simp [List.findSome?, hvm x, ih]

theorem requested_dirs_length (ext : Ext) (sch : Schema) (ctx : Ctx) :
    ∀ steps t, StepsOk ext sch ctx t steps →
      (requested_dirs steps).length = steps.length := by
  intro steps
  induction steps with
  | nil => intro t _; rfl
  | cons s rest ih =>
    intro t hok
    cases s with
    | ptrStep nm dirOpt ip tgtOpt =>
      cases ip with
      | false =>
        cases tgtOpt with
        | none =>
          simp only [StepsOk] at hok
          obtain ⟨pp, _, _, _, _, hrest⟩ := hok.2
          simp only [requested_dirs, List.length_cons]
          rw [ih _ hrest]
        | some tgt => simp only [StepsOk] at hok
      | true => simp only [StepsOk] at hok
    | sourceAnchor => simp only [StepsOk] at hok
    | subjectAnchor => simp only [StepsOk] at hok
    | objectRef mod nm => simp only [StepsOk] at hok
    | exprStep e => simp only [StepsOk] at hok

/-- Processing an anchored first step establishes the loop invariant
with an empty chain. -/
theorem anchor_step_establishes (ext : Ext) (ctx : Ctx) (st : CompState)
    (s0 : QlPathStep) (root : SetId) (t0 : TypeName)
    (hvm : ∀ q : PathId, ctx.view_map q = none)
    (ha : anchor_step_ok ctx st s0 root t0) :
    ∃ ls1, compile_path_step ext ctx 0 s0
        { st := st, path_tip := none, extra_scopes := [], computables := [],
          path_sets := [] } = .ok ls1 ∧
      LoopInv root [] t0 st.schema ls1 := by
  cases s0 with
  | sourceAnchor =>
    obtain ⟨hanch, ⟨s, hset, hpids⟩, hty⟩ := ha
    obtain ⟨pid, hpid⟩ := Option.isSome_iff_exists.mp hpids
    have hset' := hset
    simp only [CompState.getSet] at hset'
    refine ⟨{ st := st, path_tip := some root, extra_scopes := [],
              computables := [], path_sets := [root] }, ?_, ?_⟩
    · simp only [compile_path_step, hanch, view_map_remap, CompState.getSet,
        hset', hpid, view_map_findSome?_none ctx hvm, List.nil_append]
    · exact ⟨root, s, rfl, hset, hpids, hty, rfl, rfl, rfl, rfl⟩
  | subjectAnchor =>
    obtain ⟨hanch, ⟨s, hset, hpids⟩, hty⟩ := ha
    obtain ⟨pid, hpid⟩ := Option.isSome_iff_exists.mp hpids
    have hset' := hset
    simp only [CompState.getSet] at hset'
    refine ⟨{ st := st, path_tip := some root, extra_scopes := [],
              computables := [], path_sets := [root] }, ?_, ?_⟩
    · simp only [compile_path_step, hanch, view_map_remap, CompState.getSet,
        hset', hpid, view_map_findSome?_none ctx hvm, List.nil_append]
    · exact ⟨root, s, rfl, hset, hpids, hty, rfl, rfl, rfl, rfl⟩
  | objectRef mod nm =>
    obtain ⟨hmod, hali, hroot, a, s, hanch, hset, hpids, hty⟩ := ha
    obtain ⟨pid, hpid⟩ := Option.isSome_iff_exists.mp hpids
    subst hmod
    subst hroot
    have hset' := hset
    simp only [CompState.getSet] at hset'
    refine ⟨{ st := { st with
                sets := st.sets ++
                  [{ path_id := some pid, typeref := some t0, rptr := s.rptr,
                     expr := s.expr, path_scope_id := s.path_scope_id,
                     is_empty_set := false }],
                set_types := fun j =>
                  if j = st.sets.length then some (some t0)
                  else st.set_types j },
              path_tip := some st.sets.length, extra_scopes := [],
              computables := [], path_sets := [st.sets.length] }, ?_, ?_⟩
    · simp only [compile_path_step, gt_iff_lt, lt_self_iff_false, if_false,
        hali, Bool.false_eq_true, not_false_eq_true, and_true, eq_self_iff_true,
        true_and, if_true, hanch, new_set_from_set, CompState.getSet, hset',
        hpid, get_set_type_req, hty, new_set, CompState.allocSet,
        CompState.insertSetType, CompState.modifySet,
        List.getElem?_concat_length, set_append_last, view_map_remap,
        view_map_findSome?_none ctx hvm, List.nil_append]
    · refine ⟨st.sets.length,
        { path_id := some pid, typeref := some t0, rptr := s.rptr,
          expr := s.expr, path_scope_id := s.path_scope_id,
          is_empty_set := false }, rfl, ?_, rfl, ?_, rfl, rfl, rfl, rfl⟩
      · simp [CompState.getSet, List.getElem?_concat_length]
      · simp
  | ptrStep nm dirOpt ip tgtOpt => exact absurd ha (by simp [anchor_step_ok])
  | exprStep e => exact absurd ha (by simp [anchor_step_ok])

/-- Processing one pure pointer-traversal step preserves the loop
invariant, prepending the requested direction to the chain. -/
theorem ptr_step_preserves_inv (ext : Ext) (ctx : Ctx) (sch : Schema)
    (root : SetId) (dirs : List PointerDirection) (curT : TypeName)
    (nm : String) (dirOpt : Option PointerDirection) (i : Nat)
    (ls : PathLoopState) (p : Ptrcls)
    (hvm : ∀ q : PathId, ctx.view_map q = none)
    (hinv : LoopInv root dirs curT sch ls)
    (htup : sch.is_tuple curT = false)
    (hres : ext.resolve_pointer sch (.objSource curT) nm (dirOpt.getD .Outbound)
      none = (sch, some p))
    (hlp : p.is_link_property = false)
    (hnc : _is_computable_ptr p false ctx = false)
    (hsub : dirOpt.getD .Outbound = .Inbound ∨
      sch.issubclass curT (p.get_near_endpoint (dirOpt.getD .Outbound)) = true) :
    ∃ ls1, compile_path_step ext ctx i (.ptrStep nm dirOpt false none) ls =
        .ok ls1 ∧
      LoopInv root (dirOpt.getD .Outbound :: dirs)
        (p.get_far_endpoint (dirOpt.getD .Outbound)) sch ls1 := by
  obtain ⟨tip, s, htip, hset, hpids, htyp, hsch, hcomps, hex, hchain⟩ := hinv
  obtain ⟨pid, hpid⟩ := Option.isSome_iff_exists.mp hpids
  have hext := extend_path_plain ext ctx
    { ls.st with schema := sch, path_scope := ScopeTree.node none true [] }
    tip p (dirOpt.getD .Outbound) (p.get_far_endpoint (dirOpt.getD .Outbound))
    true false false false s pid curT hlp hset hpid htyp hsub hnc
  dsimp only at hext
  have hset' := hset
  simp only [CompState.getSet] at hset'
  refine ⟨{ st := { ls.st with
              schema := sch,
              sets := ls.st.sets ++
                [{ path_id := some (extend_path_id pid p (dirOpt.getD .Outbound)
                      (p.get_far_endpoint (dirOpt.getD .Outbound))
                      ctx.path_id_namespace),
                   typeref := some (p.get_far_endpoint (dirOpt.getD .Outbound)),
                   rptr := some ls.st.ptrs.length, expr := none,
                   path_scope_id := none, is_empty_set := false }],
              ptrs := ls.st.ptrs ++
                [{ source := tip, target := ls.st.sets.length,
                   ptrref := .ptrRef p (dirOpt.getD .Outbound)
                     (p.get_far_endpoint (dirOpt.getD .Outbound)),
                   direction := dirOpt.getD .Outbound, kind := .plain }],
              set_types := fun j =>
                if j = ls.st.sets.length then
                  some (some (p.get_far_endpoint (dirOpt.getD .Outbound)))
                else ls.st.set_types j },
            path_tip := some ls.st.sets.length,
            extra_scopes := ls.extra_scopes,
            computables := ls.computables,
            path_sets := ls.path_sets ++ [ls.st.sets.length] }, ?_, ?_⟩
  · simp only [compile_path_step, htip, get_set_type_req, htyp, hsch, htup,
      Bool.false_eq_true, if_false, ptr_step_set, resolve_ptr, hres, hext,
      view_map_remap, CompState.getSet, CompState.getPtr,
      List.getElem?_concat_length, ptrcls_from_ptrref, hnc, hlp,
      view_map_findSome?_none ctx hvm]
  · refine ⟨ls.st.sets.length,
      { path_id := some (extend_path_id pid p (dirOpt.getD .Outbound)
            (p.get_far_endpoint (dirOpt.getD .Outbound)) ctx.path_id_namespace),
        typeref := some (p.get_far_endpoint (dirOpt.getD .Outbound)),
        rptr := some ls.st.ptrs.length, expr := none,
        path_scope_id := none, is_empty_set := false }, rfl, ?_, rfl, ?_,
      rfl, hcomps, hex, ?_⟩
    · simp [CompState.getSet, List.getElem?_concat_length]
    · simp
    · simp only [ChainTo]
      refine
        ⟨{ path_id := some (extend_path_id pid p (dirOpt.getD .Outbound)
              (p.get_far_endpoint (dirOpt.getD .Outbound)) ctx.path_id_namespace),
           typeref := some (p.get_far_endpoint (dirOpt.getD .Outbound)),
           rptr := some ls.st.ptrs.length, expr := none,
           path_scope_id := none, is_empty_set := false }, ls.st.ptrs.length,
        { source := tip, target := ls.st.sets.length,
          ptrref := .ptrRef p (dirOpt.getD .Outbound)
            (p.get_far_endpoint (dirOpt.getD .Outbound)),
          direction := dirOpt.getD .Outbound, kind := .plain },
        by simp [CompState.getSet, List.getElem?_concat_length], rfl,
        by simp [CompState.getPtr, List.getElem?_concat_length], rfl, rfl,
        rfl, ?_⟩
      refine ChainTo_mono ls.st _ root ?_ ?_ tip dirs hchain
      · intro j sj hj
        have hj' := hj
        simp only [CompState.getSet] at hj'
        exact ⟨sj, by
          simp only [CompState.getSet]
          exact getElem?_append_lt _ hj', rfl⟩
      · intro j pj hj
        have hj' := hj
        simp only [CompState.getPtr] at hj'
        simp only [CompState.getPtr]
        exact getElem?_append_lt _ hj'

/-- The step loop preserves the invariant across a list of pure
pointer-traversal steps. -/
theorem compile_steps_inv (ext : Ext) (ctx : Ctx) (sch : Schema) (root : SetId)
    (hvm : ∀ q : PathId, ctx.view_map q = none) :
    ∀ (steps : List QlPathStep) (i : Nat) (dirs : List PointerDirection)
      (curT : TypeName) (ls : PathLoopState),
      StepsOk ext sch ctx curT steps →
      LoopInv root dirs curT sch ls →
      ∃ ls1 T1, compile_steps ext ctx steps i ls = .ok ls1 ∧
        LoopInv root ((requested_dirs steps).reverse ++ dirs) T1 sch ls1 := by
  intro steps
  induction steps with
  | nil =>
    intro i dirs curT ls hok hinv
    exact ⟨ls, curT, rfl, by simpa using hinv⟩
  | cons s rest ih =>
    intro i dirs curT ls hok hinv
    cases s with
    | ptrStep nm dirOpt ip tgtOpt =>
      cases ip with
      | false =>
        cases tgtOpt with
        | none =>
          simp only [StepsOk] at hok
          obtain ⟨htup, pp, hres, hlp, hnc, hsub, hrest⟩ := hok
          obtain ⟨ls1, heq1, hinv1⟩ := ptr_step_preserves_inv ext ctx sch root
            dirs curT nm dirOpt i ls pp hvm hinv htup hres hlp hnc hsub
          obtain ⟨ls2, T2, heq2, hinv2⟩ := ih (i + 1) _ _ ls1 hrest hinv1
          refine ⟨ls2, T2, ?_, ?_⟩
          · simp only [compile_steps, heq1, heq2]
          · simpa [requested_dirs, List.append_assoc] using hinv2
        | some tgt => exact absurd hok (by simp [StepsOk])
      | true => exact absurd hok (by simp [StepsOk])
    | sourceAnchor => exact absurd hok (by simp [StepsOk])
    | subjectAnchor => exact absurd hok (by simp [StepsOk])
    | objectRef mod nm => exact absurd hok (by simp [StepsOk])
    | exprStep e => exact absurd hok (by simp [StepsOk])

/-! Claim C1. -/

/-- C1: for a path expression made of an anchored root followed by `N`
pointer-traversal steps that resolve to non-computed, non-link-property
pointers with no type filters, `compile_path` returns a terminal Set
from which following the `rptr` chain back to the root yields exactly
`N` plain `Pointer` edges whose directions equal the requested step
directions (walked tip-to-root, hence the reversed list), and `N`
equals the number of traversal steps. -/
theorem C1_compile_path_chain (ext : Ext) (ctx : Ctx) (st : CompState)
    (s0 : QlPathStep) (rest : List QlPathStep) (root : SetId) (t0 : TypeName)
    (hvm : ∀ q : PathId, ctx.view_map q = none)
    (hanchor : anchor_step_ok ctx st s0 root t0)
    (hsteps : StepsOk ext st.schema ctx t0 rest) :
    ∃ tip st', compile_path ext ⟨false, s0 :: rest⟩ ctx st = .ok (tip, st') ∧
      ChainTo st' root tip (requested_dirs rest).reverse ∧
      (requested_dirs rest).length = rest.length := by
  obtain ⟨ls1, heq1, hinv1⟩ := anchor_step_establishes ext ctx st s0 root t0
    hvm hanchor
  obtain ⟨ls2, T2, heq2, hinv2⟩ := compile_steps_inv ext ctx st.schema root hvm
    rest 1 [] t0 ls1 hsteps hinv1
  obtain ⟨tip, s2, htip, hset2, hpids2, htyp2, hsch2, hcomps2, hex2, hchain2⟩ :=
    hinv2
  obtain ⟨pid2, hpid2⟩ := Option.isSome_iff_exists.mp hpids2
  have hset2' := hset2
  simp only [CompState.getSet] at hset2'
  refine ⟨tip,
    { ls2.st with path_scope :=
        attach_child ls2.st.path_scope (.node (some pid2) false []) }, ?_, ?_,
    requested_dirs_length ext st.schema ctx rest t0 hsteps⟩
  · simp only [compile_path, Bool.false_eq_true, if_false, compile_steps, heq1,
      heq2, htip, register_set_in_scope, CompState.getSet, hset2', hpid2,
      hcomps2, hex2, resolve_computables, fuse_extra_scopes]
  · refine ChainTo_mono ls2.st _ root ?_ ?_ tip _ ?_
    · intro j sj hj
      exact ⟨sj, hj, rfl⟩
    · intro j pj hj
      exact hj
    · simpa using hchain2

theorem C1_compile_path_chain_witness :
    (∀ q : PathId, sampleCtx.view_map q = none) ∧
    anchor_step_ok sampleCtx sampleState .sourceAnchor 0 "Person" ∧
    StepsOk sampleExt sampleState.schema sampleCtx "Person"
      [.ptrStep "friends" none false none, .ptrStep "name" none false none] ∧
    (∃ tip st', compile_path sampleExt
        ⟨false, [.sourceAnchor, .ptrStep "friends" none false none,
                 .ptrStep "name" none false none]⟩ sampleCtx sampleState =
        .ok (tip, st') ∧
      ChainTo st' 0 tip (requested_dirs
        [.ptrStep "friends" none false none,
         .ptrStep "name" none false none]).reverse ∧
      (requested_dirs [.ptrStep "friends" none false none,
        .ptrStep "name" none false none]).length = 2) := by
  have hvm : ∀ q : PathId, sampleCtx.view_map q = none := fun _ => rfl
  have hanchor : anchor_step_ok sampleCtx sampleState .sourceAnchor 0 "Person" :=
    ⟨rfl, ⟨personSet, rfl, rfl⟩, rfl⟩
  have hsteps : StepsOk sampleExt sampleState.schema sampleCtx "Person"
      [.ptrStep "friends" none false none, .ptrStep "name" none false none] := by
    simp only [StepsOk]
    exact ⟨rfl, friendsPtr, rfl, rfl, rfl, Or.inr rfl,
      rfl, namePtr, rfl, rfl, rfl, Or.inr rfl, trivial⟩
  exact ⟨hvm, hanchor, hsteps,
    C1_compile_path_chain sampleExt sampleCtx sampleState .sourceAnchor
      [.ptrStep "friends" none false none, .ptrStep "name" none false none]
      0 "Person" hvm hanchor hsteps⟩

end SetGen


